import Mathlib

/-! Formal model of the VIOLEN-YOUTUBE request-orchestration and
response-extraction pipeline: the dispatcher in src/services/gemini.ts
(queryWebNetwork, transcribeVideo, findStockFootage), the suggestion-line
extractor and image renderer of src/components/StockMode.tsx, the markdown
media renderers (MarkdownImageComponent, YouTubeEmbedComponent), and the
chat-session archive of src/components/ChatMode.tsx.

JavaScript strings are modelled as lists of characters.  The remote
generative-AI service is modelled as an oracle mapping a model-tier name to
either a thrown error or a raw response.  JSON values are modelled by an
inductive type with an executable recursive-descent parser and serializer
mirroring JSON.parse / JSON.stringify. -/

namespace Violen

/-- JavaScript string, modelled as a list of characters. -/
abbrev JStr := List Char

/-- Conversion from a Lean string literal to the JavaScript string model. -/
def js (s : String) : JStr := s.data

/-- Test whether the second list is a prefix of the first (JS startsWith). -/
def startsWithL (s pat : JStr) : Bool :=
  match pat, s with
  | [], _ => true
  | _ :: _, [] => false
  | p :: ps, c :: cs => c == p && startsWithL cs ps
termination_by structural pat

/-- JS String.prototype.includes: the pattern occurs somewhere in the string. -/
def containsSub : JStr → JStr → Bool
  | [], pat => pat.isEmpty
  | c :: cs, pat => startsWithL (c :: cs) pat || containsSub cs pat

/-- JS `a || b` for an optional string left operand: undefined and the empty
string are falsy, so both are replaced by the default. -/
def jsOr (o : Option JStr) (d : JStr) : JStr :=
  match o with
  | none => d
  | some s => if s.isEmpty then d else s

/-! Model of src/services/gemini.ts.  The external @google/genai service is
an oracle (`Uplink`) from the model-tier name to either a thrown error or a
raw service response. -/

/-- Payload of a grounding chunk's optional `web` field (src/types.ts). -/
structure WebInfo where
  uri : Option JStr
  title : Option JStr
deriving DecidableEq

/-- GroundingChunk of src/types.ts. -/
structure GroundingChunk where
  web : Option WebInfo
deriving DecidableEq

/-- Raw response returned by the external service's generateContent: the
`text` accessor may be undefined or empty, and grounding chunks are optional. -/
structure UpResponse where
  text : Option JStr
  groundingChunks : Option (List GroundingChunk)
deriving DecidableEq

/-- Error thrown by the external service: a JS error value with an optional
`message` string and an optional numeric `status` field. -/
structure UpError where
  message : Option JStr
  status : Option Nat
deriving DecidableEq

/-- Oracle for the external generative-AI service: what generateContent does
for each model-tier name during one dispatch. -/
abbrev Uplink := JStr → Except UpError UpResponse

/-- WebResponse of src/services/gemini.ts: the dispatcher's result shape. -/
structure WebResponse where
  text : JStr
  groundingChunks : Option (List GroundingChunk)
deriving DecidableEq

/-- Primary ("core") model tier name. -/
def CORE_PROTOCOL : JStr := js "gemini-3-flash-preview"

/-- Backup model tier name. -/
def BACKUP_PROTOCOL : JStr := js "gemini-3-pro-preview"

/-- Vision model tier name used by transcribeVideo. -/
def VISION_PROTOCOL : JStr := js "gemini-3-flash-preview"

/-- Sentinel substituted for empty or missing upstream text. -/
def NO_DATA_TEXT : JStr := js "NO_DATA_RECEIVED_FROM_VIOLEN"

/-- Model of the inner executeRequest helper of queryWebNetwork: forwards the
oracle's error, and on success replaces empty/missing text by the sentinel
(`response.text || "NO_DATA_RECEIVED_FROM_VIOLEN"`). -/
def executeRequest (uplink : Uplink) (model : JStr) : Except UpError WebResponse :=
  match uplink model with
  | .error e => .error e
  | .ok r => .ok { text := jsOr r.text NO_DATA_TEXT, groundingChunks := r.groundingChunks }

/-- Optional-chaining substring test `error.message?.includes(pat)`:
false when the message is undefined. -/
def msgIncludes (m : Option JStr) (pat : JStr) : Bool :=
  match m with
  | none => false
  | some s => containsSub s pat

/-- Transient-overload classification of a primary-tier failure:
`error.message?.includes('429') || error.status === 429 ||
error.message?.includes('503')`. -/
def isTrafficError (e : UpError) : Bool :=
  msgIncludes e.message (js "429") || e.status == some 429 || msgIncludes e.message (js "503")

/-- Backup-routing marker appended (with two leading newlines) to a
successful backup-tier response. -/
def REROUTED_MARKER : JStr := js "_— [Rerouted via Backup Node]_"

/-- Exact string appended to the backup-tier text. -/
def REROUTED_APPENDED : JStr := js "\n\n_— [Rerouted via Backup Node]_"

/-- Fixed system-overload sentinel text. -/
def OVERLOAD_TEXT : JStr := js "## SYSTEM OVERLOAD\n\nHigh traffic on all VIOLEN nodes. Please wait 30 seconds."

/-- Fixed connection-error sentinel text. -/
def CONNECTION_TEXT : JStr := js "## CONNECTION ERROR\n\nUnable to reach the VIOLEN Gateway."

/-- Model of queryWebNetwork.  The first component is the resolved
WebResponse (the function always resolves); the second records the model
tiers actually attempted against the service, in order. -/
def queryWebNetworkRun (uplink : Uplink) : WebResponse × List JStr :=
  match executeRequest uplink CORE_PROTOCOL with
  | .ok r => (r, [CORE_PROTOCOL])
  | .error e =>
    if isTrafficError e then
      match executeRequest uplink BACKUP_PROTOCOL with
      | .ok fb => ({ fb with text := fb.text ++ REROUTED_APPENDED }, [CORE_PROTOCOL, BACKUP_PROTOCOL])
      | .error _ => ({ text := OVERLOAD_TEXT, groundingChunks := some [] }, [CORE_PROTOCOL, BACKUP_PROTOCOL])
    else
      ({ text := CONNECTION_TEXT, groundingChunks := some [] }, [CORE_PROTOCOL])

/-- The resolved value of queryWebNetwork. -/
def queryWebNetwork (uplink : Uplink) : WebResponse :=
  (queryWebNetworkRun uplink).1

/-- Typed oversized-payload error message of transcribeVideo. -/
def TOO_LARGE_TEXT : JStr := js "Video file is too large for client-side processing. Please try a smaller file (under 20MB)."

/-- Typed model-unavailable error message of transcribeVideo. -/
def MODEL_NOT_FOUND_TEXT : JStr := js "Model " ++ VISION_PROTOCOL ++ js " not found. Please try again later or check API availability."

/-- Fallback text when the vision tier returns empty or missing text. -/
def NO_TRANSCRIPTION_TEXT : JStr := js "[No transcription generated]"

/-- Model of transcribeVideo: a single attempt against the vision tier.  The
first component is `.ok transcript` when the call resolves and
`.error message` when it throws a typed error to the caller; the second
component records the model tiers attempted, in order. -/
def transcribeVideoRun (uplink : Uplink) : Except JStr JStr × List JStr :=
  (match uplink VISION_PROTOCOL with
   | .ok r => .ok (jsOr r.text NO_TRANSCRIPTION_TEXT)
   | .error e =>
     if msgIncludes e.message (js "413") then .error TOO_LARGE_TEXT
     else if msgIncludes e.message (js "404") then .error MODEL_NOT_FOUND_TEXT
     else .error (js "Failed to transcribe video. " ++ jsOr e.message (js "Unknown error")),
   [VISION_PROTOCOL])

/-! Model of the suggestion-line extraction of ScriptMode
(src/components/StockMode.tsx): the generated script is split on newlines,
every line containing the literal marker contributes its trimmed title. -/

/-- Literal suggestion marker scanned for by ScriptMode. -/
def SUGGESTION_MARKER : JStr := js "> SUGGESTION:"

/-- JS String.prototype.replace with a string pattern: replaces only the
first occurrence, returning the string unchanged when the pattern is absent. -/
def replaceFirst : JStr → JStr → JStr → JStr
  | [], pat, rep => if pat.isEmpty then rep else []
  | c :: cs, pat, rep =>
    if startsWithL (c :: cs) pat then rep ++ (c :: cs).drop pat.length
    else c :: replaceFirst cs pat rep

/-- Whitespace characters removed by the trim model (ASCII). -/
def isTrimWs (c : Char) : Bool :=
  c == ' ' || c == '\t' || c == '\n' || c == '\r' || c == '\x0b' || c == '\x0c'

/-- JS String.prototype.trim restricted to ASCII whitespace. -/
def trimL (s : JStr) : JStr :=
  ((s.dropWhile isTrimWs).reverse.dropWhile isTrimWs).reverse

/-- JS String.prototype.split with separator a single newline. -/
def splitOnNl : JStr → List JStr
  | [] => [[]]
  | c :: cs =>
    if c == '\n' then [] :: splitOnNl cs
    else
      match splitOnNl cs with
      | l :: ls => (c :: l) :: ls
      | [] => [[c]]

/-- Contribution of one line to the suggestion list: a line containing the
marker contributes the line with the first marker occurrence removed and the
result trimmed, unless that title is empty. -/
def directiveOfLine (line : JStr) : Option JStr :=
  if containsSub line SUGGESTION_MARKER then
    if (trimL (replaceFirst line SUGGESTION_MARKER [])).isEmpty then none
    else some (trimL (replaceFirst line SUGGESTION_MARKER []))
  else none

/-- Model of the suggestion-extraction effect of ScriptMode: an empty script
gives no suggestions, otherwise each line containing the marker contributes
its trimmed title, in encounter order. -/
def extractDirectives (text : JStr) : List JStr :=
  if text.isEmpty then []
  else (splitOnNl text).filterMap directiveOfLine

/-- Line of the exact form required by the script-compilation prompt:
marker, one space, then the title. -/
def suggestionLine (t : JStr) : JStr :=
  SUGGESTION_MARKER ++ (' ' :: t)

/-! Models of the media renderers: MarkdownImageComponent and
YouTubeEmbedComponent (the unnamed markdown message-bubble source file) and
ScriptImage (src/components/StockMode.tsx).  Each React component is split
into its mount effect (the synchronous status transition plus the URL, if
any, for which a direct load probe is issued) and its pure render function
from props and status to an abstract render output. -/

/-- Wrapper-page test shared by both image renderers. -/
def isWikiWrapper (src : JStr) : Bool :=
  containsSub src (js "wiki/File:") || containsSub src (js "wiki/Image:")

/-- Validation status of a media reference. -/
inductive ImgStatus
  | loading
  | loaded
  | error
deriving DecidableEq

/-- Rendered output of an image renderer. -/
inductive ImgRender
  | sourceLinkCard (href : JStr) (caption : Option JStr)
  | altSearchCard (seed : Option JStr)
  | loadingCard
  | imageElem (src : JStr) (alt : Option JStr)
  | hidden
deriving DecidableEq

/-- Mount effect of MarkdownImageComponent: the status after the synchronous
part of the effect, and the URL for which a direct image load is issued
(none when no load is attempted). -/
def markdownImageMount (src : Option JStr) : ImgStatus × Option JStr :=
  match src with
  | none => (.error, none)
  | some s => if isWikiWrapper s then (.error, none) else (.loading, some s)

/-- Probe completion callback: onload sets loaded, onerror sets error. -/
def probeStatus (ok : Bool) : ImgStatus :=
  if ok then .loaded else .error

/-- Render function of MarkdownImageComponent. -/
def markdownImageRender (src alt : Option JStr) (status : ImgStatus) : ImgRender :=
  match src with
  | none => .altSearchCard alt
  | some s =>
    if isWikiWrapper s then .sourceLinkCard s alt
    else if status = .error then .altSearchCard alt
    else if status = .loading then .loadingCard
    else .imageElem s alt

/-- Mount effect of ScriptImage: identical wiki-wrapper short-circuit. -/
def scriptImageMount (src : Option JStr) : ImgStatus × Option JStr :=
  match src with
  | none => (.error, none)
  | some s => if isWikiWrapper s then (.error, none) else (.loading, some s)

/-- Render function of ScriptImage: broken images render nothing. -/
def scriptImageRender (src alt : Option JStr) (status : ImgStatus) : ImgRender :=
  match src with
  | none => .hidden
  | some s =>
    if status = .error then .hidden
    else if status = .loading then .loadingCard
    else .imageElem s alt

/-- Outcome of the thumbnail probe issued by YouTubeEmbedComponent. -/
inductive ThumbProbe
  | loadedWidth (w : Nat)
  | failed
deriving DecidableEq

/-- Rendered output of YouTubeEmbedComponent. -/
inductive YTRender
  | hidden
  | restrictedCard (searchTitle : JStr)
  | verifyingCard
  | playerFrame (videoId : JStr)
deriving DecidableEq

/-- Thumbnail endpoint probed for an extracted video id. -/
def thumbnailURL (videoId : JStr) : JStr :=
  js "https://i.ytimg.com/vi/" ++ videoId ++ js "/hqdefault.jpg"

/-- Effect of YouTubeEmbedComponent: the final isValid state once the
thumbnail probe completes.  A missing id validates to false without probing;
a loaded thumbnail is valid only when strictly wider than 120 pixels (the
platform's unavailable-placeholder width); a failed probe is invalid. -/
def youTubeEmbedEffect (videoId : Option JStr) (probe : ThumbProbe) : Option Bool :=
  match videoId with
  | none => some false
  | some _ =>
    match probe with
    | .loadedWidth w => some (decide (w > 120))
    | .failed => some false

/-- Render function of YouTubeEmbedComponent over (videoId, title, isValid). -/
def youTubeEmbedRender (videoId : Option JStr) (title : Option JStr)
    (isValid : Option Bool) : YTRender :=
  match videoId with
  | none => .hidden
  | some vid =>
    match isValid with
    | some false => .restrictedCard (title.getD (js "related video"))
    | none => .verifyingCard
    | some true => .playerFrame vid

/-- Concrete wiki wrapper-page URL used as a counterexample input. -/
def wikiURL : JStr := js "https://en.wikipedia.org/wiki/File:Evidence.jpg"

/-! Model of JSON values and of the JSON.parse / JSON.stringify builtins
used by findStockFootage and by the chat-session archive.  Numbers keep
their raw source lexeme, so no floating-point semantics is needed by any
claim. -/

/-- Opening curly bracket character. -/
def lbrace : Char := '\x7b'

/-- Closing curly bracket character. -/
def rbrace : Char := '\x7d'

/-- JSON insignificant whitespace. -/
def isJsonWs (c : Char) : Bool :=
  c == ' ' || c == '\t' || c == '\n' || c == '\r'

/-- Skip leading JSON whitespace. -/
def skipWs : JStr → JStr
  | [] => []
  | c :: cs => if isJsonWs c then skipWs cs else c :: cs

/-- Decimal digit test. -/
def isDigitCh (c : Char) : Bool :=
  48 ≤ c.toNat && c.toNat ≤ 57

/-- Hexadecimal digit test. -/
def isHexDigit (c : Char) : Bool :=
  isDigitCh c || (97 ≤ c.toNat && c.toNat ≤ 102) || (65 ≤ c.toNat && c.toNat ≤ 70)

/-- Value of a hexadecimal digit. -/
def hexVal (c : Char) : Nat :=
  if isDigitCh c then c.toNat - 48
  else if 97 ≤ c.toNat then c.toNat - 87
  else c.toNat - 55

/-- Lowercase hexadecimal digit for a value below 16. -/
def hexDig (n : Nat) : Char :=
  if n = 0 then '0' else if n = 1 then '1' else if n = 2 then '2'
  else if n = 3 then '3' else if n = 4 then '4' else if n = 5 then '5'
  else if n = 6 then '6' else if n = 7 then '7' else if n = 8 then '8'
  else if n = 9 then '9' else if n = 10 then 'a' else if n = 11 then 'b'
  else if n = 12 then 'c' else if n = 13 then 'd' else if n = 14 then 'e'
  else 'f'

/-- Decimal digit character for a value below 10. -/
def digitCh (n : Nat) : Char :=
  if n = 0 then '0' else if n = 1 then '1' else if n = 2 then '2'
  else if n = 3 then '3' else if n = 4 then '4' else if n = 5 then '5'
  else if n = 6 then '6' else if n = 7 then '7' else if n = 8 then '8'
  else '9'

/-- JSON value: numbers keep their raw lexeme. -/
inductive JValue where
  | null
  | bool (b : Bool)
  | num (raw : JStr)
  | str (s : JStr)
  | arr (elems : List JValue)
  | obj (members : List (JStr × JValue))

/-- Parse four hexadecimal digits into their value and the remainder. -/
def parseHex4 : JStr → Option (Nat × JStr)
  | h1 :: h2 :: h3 :: h4 :: rest =>
    if isHexDigit h1 && isHexDigit h2 && isHexDigit h3 && isHexDigit h4 then
      some (((hexVal h1 * 16 + hexVal h2) * 16 + hexVal h3) * 16 + hexVal h4, rest)
    else none
  | _ => none

/-- Fuel-indexed parser for the body of a JSON string after the opening
quote, returning the decoded content and the remainder after the closing
quote.  Unicode escapes decoding to surrogate code units are rejected. -/
def parseStrBodyF : Nat → JStr → Option (JStr × JStr)
  | 0, _ => none
  | _, [] => none
  | f + 1, c :: rest =>
    if c == '"' then some ([], rest)
    else if c == '\\' then
      match rest with
      | [] => none
      | e :: rest2 =>
        if e == '"' then (parseStrBodyF f rest2).map (fun p => ('"' :: p.1, p.2))
        else if e == '\\' then (parseStrBodyF f rest2).map (fun p => ('\\' :: p.1, p.2))
        else if e == '/' then (parseStrBodyF f rest2).map (fun p => ('/' :: p.1, p.2))
        else if e == 'b' then (parseStrBodyF f rest2).map (fun p => ('\x08' :: p.1, p.2))
        else if e == 'f' then (parseStrBodyF f rest2).map (fun p => ('\x0c' :: p.1, p.2))
        else if e == 'n' then (parseStrBodyF f rest2).map (fun p => ('\n' :: p.1, p.2))
        else if e == 'r' then (parseStrBodyF f rest2).map (fun p => ('\r' :: p.1, p.2))
        else if e == 't' then (parseStrBodyF f rest2).map (fun p => ('\t' :: p.1, p.2))
        else if e == 'u' then
          match parseHex4 rest2 with
          | none => none
          | some (n, rest3) =>
            if n < 55296 ∨ 57343 < n then
              (parseStrBodyF f rest3).map (fun p => (Char.ofNat n :: p.1, p.2))
            else none
        else none
    else if c.toNat < 32 then none
    else (parseStrBodyF f rest).map (fun p => (c :: p.1, p.2))

/-- Parse the body of a JSON string: every step consumes at least one input
character, so the input length bounds the needed fuel. -/
def parseStrBody (s : JStr) : Option (JStr × JStr) :=
  parseStrBodyF (s.length + 1) s

/-- Longest prefix of decimal digits together with the remainder. -/
def takeDigits : JStr → JStr × JStr
  | [] => ([], [])
  | c :: cs =>
    if isDigitCh c then ((c :: (takeDigits cs).1 : JStr), (takeDigits cs).2)
    else ([], c :: cs)

/-- Lex the integer part of a JSON number. -/
def lexInt (s : JStr) : Option (JStr × JStr) :=
  match s with
  | [] => none
  | c :: cs =>
    if c == '0' then some (['0'], cs)
    else if isDigitCh c then some (c :: (takeDigits cs).1, (takeDigits cs).2)
    else none

/-- Lex the optional fraction part of a JSON number. -/
def lexFrac (s : JStr) : Option (JStr × JStr) :=
  match s with
  | [] => some ([], [])
  | c :: cs =>
    if c == '.' then
      if (takeDigits cs).1.isEmpty then none
      else some ('.' :: (takeDigits cs).1, (takeDigits cs).2)
    else some ([], c :: cs)

/-- Lex the digits (with optional sign) following an exponent mark. -/
def lexExpTail (e : Char) (s : JStr) : Option (JStr × JStr) :=
  match s with
  | [] => none
  | c :: cs =>
    if c == '+' || c == '-' then
      if (takeDigits cs).1.isEmpty then none
      else some (e :: c :: (takeDigits cs).1, (takeDigits cs).2)
    else
      if (takeDigits (c :: cs)).1.isEmpty then none
      else some (e :: (takeDigits (c :: cs)).1, (takeDigits (c :: cs)).2)

/-- Lex the optional exponent part of a JSON number. -/
def lexExp (s : JStr) : Option (JStr × JStr) :=
  match s with
  | [] => some ([], [])
  | c :: cs =>
    if c == 'e' || c == 'E' then lexExpTail c cs
    else some ([], c :: cs)

/-- Lex an unsigned JSON number lexeme. -/
def lexUnsigned (s : JStr) : Option (JStr × JStr) :=
  match lexInt s with
  | none => none
  | some (ip, s2) =>
    match lexFrac s2 with
    | none => none
    | some (fp, s3) =>
      match lexExp s3 with
      | none => none
      | some (ep, s4) => some (ip ++ fp ++ ep, s4)

/-- Lex a JSON number lexeme with optional leading minus. -/
def lexNumber (s : JStr) : Option (JStr × JStr) :=
  match s with
  | [] => none
  | c :: cs =>
    if c == '-' then (lexUnsigned cs).map (fun p => ('-' :: p.1, p.2))
    else lexUnsigned (c :: cs)

mutual

/-- Fuel-indexed recursive-descent JSON value parser. -/
def parseValue : Nat → JStr → Option (JValue × JStr)
  | 0, _ => none
  | f + 1, s =>
    match skipWs s with
    | [] => none
    | c :: cs =>
      if c == 'n' then
        if startsWithL cs (js "ull") then some (.null, cs.drop 3) else none
      else if c == 't' then
        if startsWithL cs (js "rue") then some (.bool true, cs.drop 3) else none
      else if c == 'f' then
        if startsWithL cs (js "alse") then some (.bool false, cs.drop 4) else none
      else if c == '"' then
        (parseStrBody cs).map (fun p => (JValue.str p.1, p.2))
      else if c == '[' then
        match skipWs cs with
        | [] => none
        | c2 :: cs2 =>
          if c2 == ']' then some (.arr [], cs2)
          else (parseElems f (c2 :: cs2)).map (fun p => (JValue.arr p.1, p.2))
      else if c == lbrace then
        match skipWs cs with
        | [] => none
        | c2 :: cs2 =>
          if c2 == rbrace then some (.obj [], cs2)
          else (parseMembers f (c2 :: cs2)).map (fun p => (JValue.obj p.1, p.2))
      else
        (lexNumber (c :: cs)).map (fun p => (JValue.num p.1, p.2))

/-- Parse comma-separated array elements through the closing bracket. -/
def parseElems : Nat → JStr → Option (List JValue × JStr)
  | 0, _ => none
  | f + 1, s =>
    match parseValue f s with
    | none => none
    | some (v, r) =>
      match skipWs r with
      | [] => none
      | c :: r2 =>
        if c == ',' then (parseElems f r2).map (fun p => (v :: p.1, p.2))
        else if c == ']' then some ([v], r2)
        else none

/-- Parse comma-separated object members through the closing brace. -/
def parseMembers : Nat → JStr → Option (List (JStr × JValue) × JStr)
  | 0, _ => none
  | f + 1, s =>
    match skipWs s with
    | [] => none
    | c :: cs =>
      if c == '"' then
        match parseStrBody cs with
        | none => none
        | some (k, r1) =>
          match skipWs r1 with
          | [] => none
          | c2 :: r2 =>
            if c2 == ':' then
              match parseValue f r2 with
              | none => none
              | some (v, r3) =>
                match skipWs r3 with
                | [] => none
                | c3 :: r4 =>
                  if c3 == ',' then (parseMembers f r4).map (fun (p : List (JStr × JValue) × JStr) => ((k, v) :: p.1, p.2))
                  else if c3 == rbrace then some ([(k, v)], r4)
                  else none
            else none
      else none

end

/-- Model of JSON.parse: whole-input parse, trailing whitespace allowed,
any failure modelling a thrown SyntaxError as none. -/
def parseJSON (s : JStr) : Option JValue :=
  match parseValue (2 * s.length + 2) s with
  | some (v, rest) => if (skipWs rest).isEmpty then some v else none
  | none => none

/-- JSON.stringify escaping of one string character. -/
def escapeChar (c : Char) : JStr :=
  if c == '"' then ['\\', '"']
  else if c == '\\' then ['\\', '\\']
  else if c == '\x08' then ['\\', 'b']
  else if c == '\x0c' then ['\\', 'f']
  else if c == '\n' then ['\\', 'n']
  else if c == '\r' then ['\\', 'r']
  else if c == '\t' then ['\\', 't']
  else if c.toNat < 32 then ['\\', 'u', '0', '0', hexDig (c.toNat / 16), hexDig (c.toNat % 16)]
  else [c]

/-- JSON string serialization including the surrounding quotes. -/
def serStr (s : JStr) : JStr :=
  '"' :: ((s.map escapeChar).flatten ++ ['"'])

mutual

/-- Model of JSON.stringify without indentation. -/
def serialize : JValue → JStr
  | .null => js "null"
  | .bool true => js "true"
  | .bool false => js "false"
  | .num raw => raw
  | .str s => serStr s
  | .arr vs => '[' :: (serializeElems vs ++ [']'])
  | .obj ms => lbrace :: (serializeMembers ms ++ [rbrace])

/-- Serialize array elements, comma separated. -/
def serializeElems : List JValue → JStr
  | [] => []
  | [v] => serialize v
  | v :: vs => serialize v ++ ',' :: serializeElems vs

/-- Serialize object members, comma separated. -/
def serializeMembers : List (JStr × JValue) → JStr
  | [] => []
  | [(k, v)] => serStr k ++ ':' :: serialize v
  | (k, v) :: ms => serStr k ++ ':' :: serialize v ++ ',' :: serializeMembers ms

end

mutual

/-- Parser-call-depth measure of a JSON value. -/
def sizeJ : JValue → Nat
  | .null => 1
  | .bool _ => 1
  | .num _ => 1
  | .str _ => 1
  | .arr vs => 1 + sizeL vs
  | .obj ms => 1 + sizeM ms

/-- Parser-call-depth measure of an element list. -/
def sizeL : List JValue → Nat
  | [] => 1
  | v :: vs => 1 + max (sizeJ v) (sizeL vs)

/-- Parser-call-depth measure of a member list. -/
def sizeM : List (JStr × JValue) → Nat
  | [] => 1
  | (_, v) :: ms => 1 + max (sizeJ v) (sizeM ms)

end

/-- Canonical decimal number lexeme: nonempty digits, no leading zero. -/
def goodNum (raw : JStr) : Bool :=
  match raw with
  | [] => false
  | c :: cs =>
    if c == '0' then cs.isEmpty
    else (49 ≤ c.toNat && c.toNat ≤ 57) && cs.all isDigitCh

mutual

/-- All number lexemes of the value are canonical decimals. -/
def wfJ : JValue → Bool
  | .null => true
  | .bool _ => true
  | .num raw => goodNum raw
  | .str _ => true
  | .arr vs => wfL vs
  | .obj ms => wfM ms

/-- All number lexemes of the element list are canonical decimals. -/
def wfL : List JValue → Bool
  | [] => true
  | v :: vs => wfJ v && wfL vs

/-- All number lexemes of the member list are canonical decimals. -/
def wfM : List (JStr × JValue) → Bool
  | [] => true
  | (_, v) :: ms => wfJ v && wfM ms

end

/-- Remainder that cannot extend a preceding number lexeme. -/
def numSafe (rest : JStr) : Bool :=
  match rest with
  | [] => true
  | c :: _ => !(isDigitCh c || c == '.' || c == 'e' || c == 'E')

/-! Model of findStockFootage (src/services/gemini.ts): extract the
bracketed substring of the model text, JSON-parse it, and coerce each array
element defensively; every failure mode yields the empty list. -/

/-- Runtime value of a coerced stock-video record: the JS field values as
produced by the defaulting property accesses. -/
structure StockVideo where
  title : JValue
  url : JValue
  source : JValue

/-- Lookup of an object member by key, last duplicate binding winning, as
JSON.parse-created JS objects behave. -/
def memberLookup : List (JStr × JValue) → JStr → Option JValue
  | [], _ => none
  | (k0, v0) :: ms, k =>
    match memberLookup ms k with
    | some v => some v
    | none => if k0 == k then some v0 else none

/-- JS property access on a parsed JSON value: non-objects other than null
give undefined; access on null throws and is handled by the caller. -/
def jsMember (v : JValue) (key : JStr) : Option JValue :=
  match v with
  | .obj ms => memberLookup ms key
  | _ => none

/-- Whether a number lexeme denotes zero (its mantissa has no nonzero
digit). -/
def numIsZero (raw : JStr) : Bool :=
  (raw.takeWhile (fun c => !(c == 'e' || c == 'E'))).all
    (fun c => !(49 ≤ c.toNat && c.toNat ≤ 57))

/-- JS truthiness of a JSON-parsed value. -/
def jsTruthy (v : JValue) : Bool :=
  match v with
  | .null => false
  | .bool b => b
  | .num raw => !(numIsZero raw)
  | .str s => !s.isEmpty
  | .arr _ => true
  | .obj _ => true

/-- JS `a || b` where a is an optional property access result. -/
def jsOrJV (o : Option JValue) (d : JValue) : JValue :=
  match o with
  | none => d
  | some v => if jsTruthy v then v else d

/-- Coerce one parsed array element into a stock-video record with the
defensive defaults; a null element makes the property access throw. -/
def coerceItem (query : JStr) (item : JValue) : Option StockVideo :=
  match item with
  | .null => none
  | _ =>
    some { title := jsOrJV (jsMember item (js "title")) (.str query),
           url := jsOrJV (jsMember item (js "url")) (.str (js "#")),
           source := jsOrJV (jsMember item (js "source")) (.str (js "Web")) }

/-- Coerce every element, a thrown access failing the whole map. -/
def coerceAll (query : JStr) : List JValue → Option (List StockVideo)
  | [] => some []
  | item :: rest =>
    match coerceItem query item, coerceAll query rest with
    | some v, some vs => some (v :: vs)
    | _, _ => none

/-- Index of the first occurrence of a character. -/
def idxOfCh (c : Char) : JStr → Option Nat
  | [] => none
  | x :: xs => if x == c then some 0 else (idxOfCh c xs).map (· + 1)

/-- Model of the greedy regex match applied by findStockFootage: the
substring from the first opening bracket to the last closing bracket, when
the latter lies strictly after the former. -/
def bracketSlice (s : JStr) : Option JStr :=
  match idxOfCh '[' s, (idxOfCh ']' s.reverse).map (fun i => s.length - 1 - i) with
  | some i, some j => if i < j then some ((s.drop i).take (j + 1 - i)) else none
  | _, _ => none

/-- Model of findStockFootage over the service oracle's single response: a
thrown upstream error, a missing bracketed substring, a JSON parse failure,
a non-array JSON value, or a thrown element access all yield the empty list;
an array yields its coerced records. -/
def findStockFootage (query : JStr) (upstream : Except UpError UpResponse) :
    List StockVideo :=
  match upstream with
  | .error _ => []
  | .ok r =>
    match bracketSlice (jsOr r.text []) with
    | none => []
    | some sub =>
      match parseJSON sub with
      | none => []
      | some (.arr items) =>
        match coerceAll query items with
        | some l => l
        | none => []
      | some _ => []

/-! Model of the chat-session archive (src/components/ChatMode.tsx and
src/types.ts): sessions are serialized with JSON.stringify into the local
store and reloaded with JSON.parse. -/

/-- Message role (src/types.ts). -/
inductive Role
  | user
  | model
deriving DecidableEq

/-- Source reference attached to a bot message. -/
structure SourceRef where
  title : Option JStr
  uri : Option JStr
deriving DecidableEq

/-- ChatMessage of src/types.ts. -/
structure ChatMessage where
  id : JStr
  role : Role
  text : JStr
  imageUrl : Option JStr
  timestamp : Nat
  sources : Option (List SourceRef)
deriving DecidableEq

/-- ChatSession of src/types.ts. -/
structure ChatSession where
  id : JStr
  title : JStr
  messages : List ChatMessage
  timestamp : Nat
deriving DecidableEq

/-- Role serialization. -/
def roleStr : Role → JStr
  | .user => js "user"
  | .model => js "model"

/-- Fuel-indexed decimal rendering of a natural number. -/
def natLexAux : Nat → Nat → JStr
  | 0, _ => []
  | fuel + 1, n =>
    if n < 10 then [digitCh n]
    else natLexAux fuel (n / 10) ++ [digitCh (n % 10)]

/-- Decimal lexeme of a natural number (JS integer stringification). -/
def natLex (n : Nat) : JStr := natLexAux (n + 1) n

/-- Member for an optional string property: an undefined value is omitted
by JSON.stringify. -/
def optStrMember (k : String) (v : Option JStr) : List (JStr × JValue) :=
  match v with
  | none => []
  | some s => [(js k, .str s)]

/-- Encoding of a source reference as stringified. -/
def encodeSource (s : SourceRef) : JValue :=
  .obj (optStrMember "title" s.title ++ optStrMember "uri" s.uri)

/-- Encoding of a chat message as stringified (properties in construction
order, undefined-valued properties omitted). -/
def encodeMessage (m : ChatMessage) : JValue :=
  .obj ([(js "id", .str m.id), (js "role", .str (roleStr m.role)), (js "text", .str m.text)]
    ++ optStrMember "imageUrl" m.imageUrl
    ++ [(js "timestamp", .num (natLex m.timestamp))]
    ++ (match m.sources with
        | none => []
        | some l => [(js "sources", .arr (l.map encodeSource))]))

/-- Encoding of a chat session as stringified. -/
def encodeSession (s : ChatSession) : JValue :=
  .obj [(js "id", .str s.id), (js "title", .str s.title),
        (js "messages", .arr (s.messages.map encodeMessage)),
        (js "timestamp", .num (natLex s.timestamp))]

/-- Encoding of the stored session list. -/
def encodeSessions (l : List ChatSession) : JValue :=
  .arr (l.map encodeSession)

/-- Accumulated decimal value of a digit string. -/
def valFold (s : JStr) : Nat :=
  s.foldl (fun a c => a * 10 + (c.toNat - 48)) 0

/-- Decode a decimal lexeme. -/
def natOfLex (s : JStr) : Option Nat :=
  if s.isEmpty then none
  else if s.all isDigitCh then some (valFold s)
  else none

/-- Structural readings performed by the UI on parsed store values. -/
def decodeStr : JValue → Option JStr
  | .str s => some s
  | _ => none

/-- Structural reading of a role string. -/
def decodeRole : JValue → Option Role
  | .str s =>
    if s == js "user" then some .user
    else if s == js "model" then some .model
    else none
  | _ => none

/-- Structural reading of a numeric timestamp. -/
def decodeNat : JValue → Option Nat
  | .num raw => natOfLex raw
  | _ => none

/-- Structural reading of an optional string property. -/
def decodeOptStr (ms : List (JStr × JValue)) (k : String) : Option (Option JStr) :=
  match memberLookup ms (js k) with
  | none => some none
  | some v => (decodeStr v).map some

/-- Structural reading of a source reference. -/
def decodeSource : JValue → Option SourceRef
  | .obj ms =>
    match decodeOptStr ms "title", decodeOptStr ms "uri" with
    | some t, some u => some { title := t, uri := u }
    | _, _ => none
  | _ => none

/-- Decode every element of a JSON array. -/
def decodeListJV {α : Type} (dec : JValue → Option α) : List JValue → Option (List α)
  | [] => some []
  | v :: vs =>
    match dec v, decodeListJV dec vs with
    | some a, some as => some (a :: as)
    | _, _ => none

/-- Structural reading of a chat message. -/
def decodeMessage : JValue → Option ChatMessage
  | .obj ms =>
    match memberLookup ms (js "id"), memberLookup ms (js "role"),
        memberLookup ms (js "text"), decodeOptStr ms "imageUrl",
        memberLookup ms (js "timestamp") with
    | some vid, some vrole, some vtext, some img, some vts =>
      match decodeStr vid, decodeRole vrole, decodeStr vtext, decodeNat vts with
      | some i, some ro, some tx, some ts =>
        match memberLookup ms (js "sources") with
        | none =>
          some { id := i, role := ro, text := tx, imageUrl := img,
                 timestamp := ts, sources := none }
        | some (.arr svs) =>
          match decodeListJV decodeSource svs with
          | some srcs =>
            some { id := i, role := ro, text := tx, imageUrl := img,
                   timestamp := ts, sources := some srcs }
          | none => none
        | some _ => none
      | _, _, _, _ => none
    | _, _, _, _, _ => none
  | _ => none

/-- Structural reading of a chat session. -/
def decodeSession : JValue → Option ChatSession
  | .obj ms =>
    match memberLookup ms (js "id"), memberLookup ms (js "title"),
        memberLookup ms (js "messages"), memberLookup ms (js "timestamp") with
    | some vid, some vtitle, some (.arr mvs), some vts =>
      match decodeStr vid, decodeStr vtitle, decodeListJV decodeMessage mvs,
          decodeNat vts with
      | some i, some t, some msgs, some ts =>
        some { id := i, title := t, messages := msgs, timestamp := ts }
      | _, _, _, _ => none
    | _, _, _, _ => none
  | _ => none

/-- Structural reading of the stored session list. -/
def decodeSessions : JValue → Option (List ChatSession)
  | .arr vs => decodeListJV decodeSession vs
  | _ => none

/-- Derived session title: first forty characters of the first message's
text, with an ellipsis when truncated. -/
def sessionTitleOf (firstText : JStr) : JStr :=
  firstText.take 40 ++ (if 40 < firstText.length then js "..." else [])

/-- Model of saveCurrentSession: an empty message list saves nothing;
otherwise a session derived from the messages and current time is prepended
to the archives and the whole list rewritten to the store. -/
def saveCurrentSession (now : Nat) (messages : List ChatMessage)
    (archives : List ChatSession) : List ChatSession :=
  match messages with
  | [] => archives
  | m0 :: _ =>
    { id := natLex now,
      title := jsOr (some (sessionTitleOf m0.text)) (js "Untitled Investigation"),
      messages := messages,
      timestamp := now } :: archives

/-- Oracle on which every tier resolves but with missing text. -/
def upNoText : Uplink := fun _ => .ok { text := none, groundingChunks := none }

/-- Oracle on which every tier throws a non-overload error. -/
def upConnFail : Uplink := fun _ => .error { message := some (js "network down"), status := none }

/-- Oracle on which every tier throws a rate-limit error. -/
def upOverload : Uplink := fun _ => .error { message := some (js "got 429 from service"), status := none }

/-- Oracle whose primary tier is rate-limited and whose backup tier succeeds. -/
def upBackupOk : Uplink := fun m =>
  if m == CORE_PROTOCOL then .error { message := none, status := some 429 }
  else .ok { text := some (js "report body"), groundingChunks := none }

/-- Oracle whose vision tier throws an oversized-payload error. -/
def up413 : Uplink := fun _ => .error { message := some (js "Request failed with status 413"), status := none }

/-! Theorems. -/

/-- Helper: jsOr of a nonempty default is nonempty. -/
theorem jsOr_ne_nil (o : Option JStr) (d : JStr) (hd : d ≠ []) : jsOr o d ≠ [] := by
  cases o with
  | none => simpa [jsOr] using hd
  | some s =>
    by_cases hs : s.isEmpty
    · simpa [jsOr, hs] using hd
    · simpa [jsOr, hs] using (by simpa [List.isEmpty_iff] using hs : s ≠ [])

/-- Helper: appending a nonempty list on the right gives a nonempty list. -/
theorem append_right_ne_nil (a b : JStr) (hb : b ≠ []) : a ++ b ≠ [] := by
  intro h
  exact hb (List.append_eq_nil.mp h).2

/-- Helper: shape of queryWebNetworkRun when the primary tier resolves. -/
theorem queryWebNetworkRun_ok (uplink : Uplink) (r : UpResponse)
    (hc : uplink CORE_PROTOCOL = .ok r) :
    queryWebNetworkRun uplink =
      ({ text := jsOr r.text NO_DATA_TEXT, groundingChunks := r.groundingChunks }, [CORE_PROTOCOL]) := by
  simp [queryWebNetworkRun, executeRequest, hc]

/-- Helper: shape of queryWebNetworkRun on a non-overload primary failure. -/
theorem queryWebNetworkRun_conn (uplink : Uplink) (e : UpError)
    (hc : uplink CORE_PROTOCOL = .error e) (ht : isTrafficError e = false) :
    queryWebNetworkRun uplink =
      ({ text := CONNECTION_TEXT, groundingChunks := some [] }, [CORE_PROTOCOL]) := by
  simp [queryWebNetworkRun, executeRequest, hc, ht]

/-- Helper: shape of queryWebNetworkRun when the primary tier is overloaded
and the backup tier succeeds. -/
theorem queryWebNetworkRun_backup_ok (uplink : Uplink) (e : UpError) (fb : UpResponse)
    (hc : uplink CORE_PROTOCOL = .error e) (ht : isTrafficError e = true)
    (hb : uplink BACKUP_PROTOCOL = .ok fb) :
    queryWebNetworkRun uplink =
      ({ text := jsOr fb.text NO_DATA_TEXT ++ REROUTED_APPENDED, groundingChunks := fb.groundingChunks },
        [CORE_PROTOCOL, BACKUP_PROTOCOL]) := by
  simp [queryWebNetworkRun, executeRequest, hc, ht, hb]

/-- Helper: shape of queryWebNetworkRun when both tiers fail with overload. -/
theorem queryWebNetworkRun_both_fail (uplink : Uplink) (e e2 : UpError)
    (hc : uplink CORE_PROTOCOL = .error e) (ht : isTrafficError e = true)
    (hb : uplink BACKUP_PROTOCOL = .error e2) :
    queryWebNetworkRun uplink =
      ({ text := OVERLOAD_TEXT, groundingChunks := some [] }, [CORE_PROTOCOL, BACKUP_PROTOCOL]) := by
  simp [queryWebNetworkRun, executeRequest, hc, ht, hb]

/-- C1: for every oracle, queryWebNetwork resolves to a response whose text
is a nonempty string, and when the primary tier resolves with empty or
missing upstream text, that text is the NO_DATA_RECEIVED_FROM_VIOLEN
sentinel. -/
theorem queryWebNetwork_text_defined_nonempty (uplink : Uplink) :
    (queryWebNetwork uplink).text ≠ [] ∧
    (∀ r : UpResponse, uplink CORE_PROTOCOL = .ok r → (r.text = none ∨ r.text = some []) →
      (queryWebNetwork uplink).text = NO_DATA_TEXT) := by
  constructor
  · show (queryWebNetworkRun uplink).1.text ≠ []
    cases hc : uplink CORE_PROTOCOL with
    | ok r =>
      rw [queryWebNetworkRun_ok uplink r hc]
      exact jsOr_ne_nil r.text NO_DATA_TEXT (by decide)
    | error e =>
      cases ht : isTrafficError e with
      | false =>
        rw [queryWebNetworkRun_conn uplink e hc ht]
        decide
      | true =>
        cases hb : uplink BACKUP_PROTOCOL with
        | ok fb =>
          rw [queryWebNetworkRun_backup_ok uplink e fb hc ht hb]
          exact append_right_ne_nil _ _ (by decide)
        | error e2 =>
          rw [queryWebNetworkRun_both_fail uplink e e2 hc ht hb]
          decide
  · intro r hc hr
    show (queryWebNetworkRun uplink).1.text = NO_DATA_TEXT
    rw [queryWebNetworkRun_ok uplink r hc]
    rcases hr with hr | hr <;> simp [hr, jsOr]

/-- C1 witness: on an oracle whose primary tier resolves with missing text,
the resolved text is nonempty and equals the sentinel. -/
theorem queryWebNetwork_text_defined_nonempty_witness :
    (queryWebNetwork upNoText).text ≠ [] ∧ (queryWebNetwork upNoText).text = NO_DATA_TEXT :=
  ⟨(queryWebNetwork_text_defined_nonempty upNoText).1,
   (queryWebNetwork_text_defined_nonempty upNoText).2
     { text := none, groundingChunks := none } rfl (Or.inl rfl)⟩

/-- C2: when the primary tier fails, a non-overload failure yields the fixed
connection-error sentinel with an empty citation list and the backup tier is
never attempted, while an overload failure followed by a backup failure
yields the fixed system-overload sentinel with an empty citation list. -/
theorem queryWebNetwork_failure_sentinels (uplink : Uplink) (e : UpError)
    (hc : uplink CORE_PROTOCOL = .error e) :
    (isTrafficError e = false →
      queryWebNetworkRun uplink =
        ({ text := CONNECTION_TEXT, groundingChunks := some [] }, [CORE_PROTOCOL]) ∧
      BACKUP_PROTOCOL ∉ (queryWebNetworkRun uplink).2) ∧
    (isTrafficError e = true → ∀ e2 : UpError, uplink BACKUP_PROTOCOL = .error e2 →
      queryWebNetworkRun uplink =
        ({ text := OVERLOAD_TEXT, groundingChunks := some [] }, [CORE_PROTOCOL, BACKUP_PROTOCOL])) := by
  constructor
  · intro ht
    refine ⟨queryWebNetworkRun_conn uplink e hc ht, ?_⟩
    rw [queryWebNetworkRun_conn uplink e hc ht]
    decide
  · intro ht e2 hb
    exact queryWebNetworkRun_both_fail uplink e e2 hc ht hb

/-- C2 witness: concrete evaluations of the two sentinel branches. -/
theorem queryWebNetwork_failure_sentinels_witness :
    queryWebNetworkRun upConnFail =
      ({ text := CONNECTION_TEXT, groundingChunks := some [] }, [CORE_PROTOCOL]) ∧
    queryWebNetworkRun upOverload =
      ({ text := OVERLOAD_TEXT, groundingChunks := some [] }, [CORE_PROTOCOL, BACKUP_PROTOCOL]) :=
  ⟨((queryWebNetwork_failure_sentinels upConnFail
      { message := some (js "network down"), status := none } rfl).1 (by decide)).1,
   (queryWebNetwork_failure_sentinels upOverload
      { message := some (js "got 429 from service"), status := none } rfl).2 (by decide)
      { message := some (js "got 429 from service"), status := none } rfl⟩

/-- C3: when the primary tier fails with a transient-overload signal and the
backup tier succeeds, the result is the backup tier's response with the
backup-routing marker appended, so the returned text ends with the marker. -/
theorem queryWebNetwork_backup_reroute (uplink : Uplink) (e : UpError) (fb : UpResponse)
    (hc : uplink CORE_PROTOCOL = .error e) (ht : isTrafficError e = true)
    (hb : uplink BACKUP_PROTOCOL = .ok fb) :
    queryWebNetwork uplink =
      { text := jsOr fb.text NO_DATA_TEXT ++ REROUTED_APPENDED,
        groundingChunks := fb.groundingChunks } ∧
    ∃ t : JStr, (queryWebNetwork uplink).text = t ++ REROUTED_MARKER := by
  have h := queryWebNetworkRun_backup_ok uplink e fb hc ht hb
  constructor
  · show (queryWebNetworkRun uplink).1 = _
    rw [h]
  · refine ⟨jsOr fb.text NO_DATA_TEXT ++ js "\n\n", ?_⟩
    show (queryWebNetworkRun uplink).1.text = _
    rw [h]
    show jsOr fb.text NO_DATA_TEXT ++ REROUTED_APPENDED = _
    rw [List.append_assoc]
    rfl

/-- C3 witness: a concrete rerouted dispatch whose text ends in the marker. -/
theorem queryWebNetwork_backup_reroute_witness :
    queryWebNetwork upBackupOk =
      { text := js "report body" ++ REROUTED_APPENDED, groundingChunks := none } ∧
    ∃ t : JStr, (queryWebNetwork upBackupOk).text = t ++ REROUTED_MARKER := by
  have h := queryWebNetwork_backup_reroute upBackupOk
    { message := none, status := some 429 }
    { text := some (js "report body"), groundingChunks := none }
    rfl (by decide) rfl
  exact ⟨by rw [h.1]; decide, h.2⟩

/-- C8: transcribeVideo attempts exactly the vision tier once (no fallback
tier), and on any failure it never resolves: it throws the typed
oversized-payload error when the message signals 413, the typed
model-unavailable error when the message signals 404 (and not 413), and the
generic transcription-failure error otherwise. -/
theorem transcribeVideo_single_attempt_typed_errors (uplink : Uplink) :
    (transcribeVideoRun uplink).2 = [VISION_PROTOCOL] ∧
    (∀ e : UpError, uplink VISION_PROTOCOL = .error e →
      (∀ t : JStr, (transcribeVideoRun uplink).1 ≠ .ok t) ∧
      (msgIncludes e.message (js "413") = true →
        (transcribeVideoRun uplink).1 = .error TOO_LARGE_TEXT) ∧
      (msgIncludes e.message (js "413") = false → msgIncludes e.message (js "404") = true →
        (transcribeVideoRun uplink).1 = .error MODEL_NOT_FOUND_TEXT) ∧
      (msgIncludes e.message (js "413") = false → msgIncludes e.message (js "404") = false →
        (transcribeVideoRun uplink).1 =
          .error (js "Failed to transcribe video. " ++ jsOr e.message (js "Unknown error")))) := by
  refine ⟨rfl, ?_⟩
  intro e he
  refine ⟨?_, ?_, ?_, ?_⟩
  · intro t h
    rw [show (transcribeVideoRun uplink).1 = (match uplink VISION_PROTOCOL with
        | .ok r => Except.ok (jsOr r.text NO_TRANSCRIPTION_TEXT)
        | .error e =>
          if msgIncludes e.message (js "413") then .error TOO_LARGE_TEXT
          else if msgIncludes e.message (js "404") then .error MODEL_NOT_FOUND_TEXT
          else .error (js "Failed to transcribe video. " ++ jsOr e.message (js "Unknown error")) :
          Except JStr JStr) from rfl, he] at h
    by_cases h13 : msgIncludes e.message (js "413") = true
    · simp [h13] at h
    · by_cases h04 : msgIncludes e.message (js "404") = true
      · simp [h13, h04] at h
      · simp [h13, h04] at h
  · intro h13
    show (match uplink VISION_PROTOCOL with
        | .ok r => Except.ok (jsOr r.text NO_TRANSCRIPTION_TEXT)
        | .error e =>
          if msgIncludes e.message (js "413") then .error TOO_LARGE_TEXT
          else if msgIncludes e.message (js "404") then .error MODEL_NOT_FOUND_TEXT
          else .error (js "Failed to transcribe video. " ++ jsOr e.message (js "Unknown error")) :
          Except JStr JStr) = _
    rw [he]
    simp [h13]
  · intro h13 h04
    show (match uplink VISION_PROTOCOL with
        | .ok r => Except.ok (jsOr r.text NO_TRANSCRIPTION_TEXT)
        | .error e =>
          if msgIncludes e.message (js "413") then .error TOO_LARGE_TEXT
          else if msgIncludes e.message (js "404") then .error MODEL_NOT_FOUND_TEXT
          else .error (js "Failed to transcribe video. " ++ jsOr e.message (js "Unknown error")) :
          Except JStr JStr) = _
    rw [he]
    simp [h13, h04]
  · intro h13 h04
    show (match uplink VISION_PROTOCOL with
        | .ok r => Except.ok (jsOr r.text NO_TRANSCRIPTION_TEXT)
        | .error e =>
          if msgIncludes e.message (js "413") then .error TOO_LARGE_TEXT
          else if msgIncludes e.message (js "404") then .error MODEL_NOT_FOUND_TEXT
          else .error (js "Failed to transcribe video. " ++ jsOr e.message (js "Unknown error")) :
          Except JStr JStr) = _
    rw [he]
    simp [h13, h04]

/-- C8 witness: a concrete 413 failure raises the oversized-payload error. -/
theorem transcribeVideo_single_attempt_typed_errors_witness :
    (transcribeVideoRun up413).2 = [VISION_PROTOCOL] ∧
    (transcribeVideoRun up413).1 = .error TOO_LARGE_TEXT :=
  ⟨(transcribeVideo_single_attempt_typed_errors up413).1,
   (((transcribeVideo_single_attempt_typed_errors up413).2
      { message := some (js "Request failed with status 413"), status := none } rfl).2.1 (by decide))⟩

/-- C10: after a primary-tier failure, the backup tier is attempted exactly
when the thrown error's message contains the substring 429 or 503, or its
status field equals 429; any other failure immediately yields the
connection-error sentinel without a backup attempt. -/
theorem queryWebNetwork_overload_is_substring_test (uplink : Uplink) (e : UpError)
    (hc : uplink CORE_PROTOCOL = .error e) :
    (BACKUP_PROTOCOL ∈ (queryWebNetworkRun uplink).2 ↔
      (msgIncludes e.message (js "429") = true ∨ e.status = some 429 ∨
        msgIncludes e.message (js "503") = true)) ∧
    ((msgIncludes e.message (js "429") = false ∧ e.status ≠ some 429 ∧
        msgIncludes e.message (js "503") = false) →
      queryWebNetworkRun uplink =
        ({ text := CONNECTION_TEXT, groundingChunks := some [] }, [CORE_PROTOCOL])) := by
  have hclass : isTrafficError e = true ↔
      (msgIncludes e.message (js "429") = true ∨ e.status = some 429 ∨
        msgIncludes e.message (js "503") = true) := by
    simp [isTrafficError, or_assoc]
  constructor
  · cases ht : isTrafficError e with
    | true =>
      constructor
      · intro _
        exact hclass.mp ht
      · intro _
        cases hb : uplink BACKUP_PROTOCOL with
        | ok fb =>
          rw [queryWebNetworkRun_backup_ok uplink e fb hc ht hb]
          simp
        | error e2 =>
          rw [queryWebNetworkRun_both_fail uplink e e2 hc ht hb]
          simp
    | false =>
      constructor
      · intro hmem
        rw [queryWebNetworkRun_conn uplink e hc ht] at hmem
        simp at hmem
        exact absurd hmem (by decide)
      · intro hdisj
        exact absurd (hclass.mpr hdisj) (by simp [ht])
  · intro hno
    refine queryWebNetworkRun_conn uplink e hc ?_
    cases ht : isTrafficError e with
    | false => rfl
    | true =>
      rcases hclass.mp ht with h | h | h
      · exact absurd h (by simp [hno.1])
      · exact absurd h hno.2.1
      · exact absurd h (by simp [hno.2.2])

/-- C10 witness: a non-overload failure attempts no backup and returns the
connection-error sentinel. -/
theorem queryWebNetwork_overload_is_substring_test_witness :
    (¬ BACKUP_PROTOCOL ∈ (queryWebNetworkRun upConnFail).2) ∧
    queryWebNetworkRun upConnFail =
      ({ text := CONNECTION_TEXT, groundingChunks := some [] }, [CORE_PROTOCOL]) := by
  have h := queryWebNetwork_overload_is_substring_test upConnFail
    { message := some (js "network down"), status := none } rfl
  refine ⟨fun hmem => ?_, h.2 (by refine ⟨by decide, by decide, by decide⟩)⟩
  rcases h.1.mp hmem with hx | hx | hx
  · exact absurd hx (by decide)
  · exact absurd hx (by decide)
  · exact absurd hx (by decide)

/-- Helper: startsWithL decides the prefix relation. -/
theorem startsWithL_iff (pat : JStr) : ∀ l : JStr, startsWithL l pat = true ↔ pat <+: l := by
  induction pat with
  | nil =>
    intro l
    cases l <;> simp [startsWithL]
  | cons p ps ih =>
    intro l
    cases l with
    | nil => simp [startsWithL]
    | cons c cs =>
      simp only [startsWithL, Bool.and_eq_true, beq_iff_eq, ih, List.cons_prefix_cons]
      constructor
      · rintro ⟨h1, h2⟩
        exact ⟨h1.symm, h2⟩
      · rintro ⟨h1, h2⟩
        exact ⟨h1.symm, h2⟩

/-- Helper: containsSub decides the infix relation. -/
theorem containsSub_iff (pat : JStr) : ∀ l : JStr, containsSub l pat = true ↔ pat <:+: l := by
  intro l
  induction l with
  | nil =>
    simp [containsSub, List.isEmpty_iff, List.infix_nil]
  | cons c cs ih =>
    simp only [containsSub, Bool.or_eq_true, startsWithL_iff, ih]
    constructor
    · rintro (h | h)
      · exact h.isInfix
      · exact List.infix_cons h
    · intro h
      rcases (List.infix_cons_iff).mp h with h | h
      · exact Or.inl h
      · exact Or.inr h

/-- Helper: a pattern that is a prefix is contained. -/
theorem containsSub_of_sw (l pat : JStr) (h : startsWithL l pat = true) :
    containsSub l pat = true :=
  (containsSub_iff pat l).mpr ((startsWithL_iff pat l).mp h).isInfix

/-- Helper: splitOnNl never returns the empty list of lines. -/
theorem splitOnNl_ne_nil (s : JStr) : splitOnNl s ≠ [] := by
  cases s with
  | nil => simp [splitOnNl]
  | cons c cs =>
    by_cases h : (c == '\n') = true
    · simp [splitOnNl, h]
    · cases hcs : splitOnNl cs with
      | nil => simp [splitOnNl, h, hcs]
      | cons l ls => simp [splitOnNl, h, hcs]

/-- Helper: the first line produced by splitOnNl is a prefix of the input. -/
theorem splitOnNl_head_prefix : ∀ (s l0 : JStr) (ls : List JStr),
    splitOnNl s = l0 :: ls → l0 <+: s := by
  intro s
  induction s with
  | nil =>
    intro l0 ls h
    simp only [splitOnNl] at h
    injection h with h1 h2
    subst h1
    exact List.nil_prefix
  | cons c cs ih =>
    intro l0 ls h
    by_cases hc : (c == '\n') = true
    · have heq : splitOnNl (c :: cs) = [] :: splitOnNl cs := by simp [splitOnNl, hc]
      rw [heq] at h
      injection h with h1 h2
      subst h1
      exact List.nil_prefix
    · cases hcs : splitOnNl cs with
      | nil => exact absurd hcs (splitOnNl_ne_nil cs)
      | cons m ms =>
        have heq : splitOnNl (c :: cs) = (c :: m) :: ms := by simp [splitOnNl, hc, hcs]
        rw [heq] at h
        injection h with h1 h2
        subst h1
        exact List.cons_prefix_cons.mpr ⟨rfl, ih m ms hcs⟩

/-- Helper: every line produced by splitOnNl is an infix of the input. -/
theorem mem_splitOnNl_infix : ∀ (s l : JStr), l ∈ splitOnNl s → l <:+: s := by
  intro s
  induction s with
  | nil =>
    intro l h
    simp [splitOnNl] at h
    subst h
    exact List.nil_infix
  | cons c cs ih =>
    intro l h
    by_cases hc : (c == '\n') = true
    · have heq : splitOnNl (c :: cs) = [] :: splitOnNl cs := by simp [splitOnNl, hc]
      rw [heq] at h
      rcases List.mem_cons.mp h with h | h
      · subst h
        exact List.nil_infix
      · exact List.infix_cons (ih l h)
    · cases hcs : splitOnNl cs with
      | nil => exact absurd hcs (splitOnNl_ne_nil cs)
      | cons m ms =>
        have heq : splitOnNl (c :: cs) = (c :: m) :: ms := by simp [splitOnNl, hc, hcs]
        rw [heq] at h
        rcases List.mem_cons.mp h with h | h
        · subst h
          exact (List.cons_prefix_cons.mpr ⟨rfl, splitOnNl_head_prefix cs m ms hcs⟩).isInfix
        · exact List.infix_cons (ih l (by rw [hcs]; exact List.mem_cons_of_mem m h))

/-- Helper: replaceFirst at a matching prefix drops the pattern. -/
theorem replaceFirst_of_sw (l pat rep : JStr) (hp : pat ≠ [])
    (hs : startsWithL l pat = true) :
    replaceFirst l pat rep = rep ++ l.drop pat.length := by
  cases l with
  | nil =>
    cases pat with
    | nil => exact absurd rfl hp
    | cons p ps => simp [startsWithL] at hs
  | cons c cs => simp [replaceFirst, hs]

/-- Helper: a well-formed suggestion line contributes exactly its title. -/
theorem directiveOfLine_suggestion (t : JStr) (ht : trimL t = t) (hne : t ≠ []) :
    directiveOfLine (suggestionLine t) = some t := by
  have hsw : startsWithL (suggestionLine t) SUGGESTION_MARKER = true :=
    (startsWithL_iff _ _).mpr ⟨' ' :: t, rfl⟩
  have hcs : containsSub (suggestionLine t) SUGGESTION_MARKER = true :=
    containsSub_of_sw _ _ hsw
  have hrep : replaceFirst (suggestionLine t) SUGGESTION_MARKER [] = ' ' :: t := by
    rw [replaceFirst_of_sw _ _ _ (by decide) hsw]
    show (SUGGESTION_MARKER ++ (' ' :: t)).drop SUGGESTION_MARKER.length = ' ' :: t
    exact List.drop_left _ _
  have htrim : trimL (' ' :: t) = t := by
    have h1 : trimL (' ' :: t) = trimL t := by
      simp [trimL, List.dropWhile_cons, isTrimWs]
    rw [h1, ht]
  simp [directiveOfLine, hcs, hrep, htrim, List.isEmpty_iff, hne]

/-- Helper: a line not containing the marker contributes nothing. -/
theorem directiveOfLine_none (l : JStr) (h : containsSub l SUGGESTION_MARKER = false) :
    directiveOfLine l = none := by
  simp [directiveOfLine, h]

/-- Helper: filterMap over a list with no hits is empty. -/
theorem filterMap_none {α β : Type} (f : α → Option β) (l : List α)
    (h : ∀ a ∈ l, f a = none) : l.filterMap f = [] := by
  induction l with
  | nil => rfl
  | cons x xs ih =>
    simp [List.filterMap_cons, h x (by simp), ih (fun a ha => h a (by simp [ha]))]

/-- C5: when the generated text splits into lines of which exactly three
contain the suggestion marker, each of the exact form marker-space-title
with a nonempty pre-trimmed title, the extracted directives are those three
titles in source order; and when the marker never appears in the text, the
extraction returns the empty list. -/
theorem extractDirectives_three_or_empty (text : JStr) :
    (∀ (a1 a2 a3 a4 : List JStr) (t1 t2 t3 : JStr),
      splitOnNl text =
        a1 ++ suggestionLine t1 :: (a2 ++ suggestionLine t2 :: (a3 ++ suggestionLine t3 :: a4)) →
      (∀ l ∈ a1 ++ a2 ++ a3 ++ a4, containsSub l SUGGESTION_MARKER = false) →
      trimL t1 = t1 ∧ trimL t2 = t2 ∧ trimL t3 = t3 →
      t1 ≠ [] ∧ t2 ≠ [] ∧ t3 ≠ [] →
      extractDirectives text = [t1, t2, t3]) ∧
    (containsSub text SUGGESTION_MARKER = false → extractDirectives text = []) := by
  constructor
  · intro a1 a2 a3 a4 t1 t2 t3 hdec hnm htrim hne
    have htext : text ≠ [] := by
      intro h0
      rw [h0] at hdec
      have hlen := congrArg List.length hdec
      simp [splitOnNl, List.length_append] at hlen
      omega
    have hie : text.isEmpty = false := by
      cases hh : text.isEmpty
      · rfl
      · exact absurd (List.isEmpty_iff.mp hh) htext
    have hno : ∀ a : List JStr, (∀ l ∈ a, containsSub l SUGGESTION_MARKER = false) →
        a.filterMap directiveOfLine = [] := by
      intro a ha
      exact filterMap_none _ _ (fun l hl => directiveOfLine_none l (ha l hl))
    have h1 := hno a1 (fun l hl => hnm l (by simp [hl]))
    have h2 := hno a2 (fun l hl => hnm l (by simp [hl]))
    have h3 := hno a3 (fun l hl => hnm l (by simp [hl]))
    have h4 := hno a4 (fun l hl => hnm l (by simp [hl]))
    have hd1 := directiveOfLine_suggestion t1 htrim.1 hne.1
    have hd2 := directiveOfLine_suggestion t2 htrim.2.1 hne.2.1
    have hd3 := directiveOfLine_suggestion t3 htrim.2.2 hne.2.2
    simp [extractDirectives, hie, hdec, List.filterMap_append, List.filterMap_cons,
      h1, h2, h3, h4, hd1, hd2, hd3]
  · intro hnm
    by_cases h0 : text = []
    · simp [extractDirectives, h0]
    · have hie : text.isEmpty = false := by
        cases hh : text.isEmpty
        · rfl
        · exact absurd (List.isEmpty_iff.mp hh) h0
      simp only [extractDirectives, hie, Bool.false_eq_true, if_false]
      refine filterMap_none _ _ (fun l hl => directiveOfLine_none l ?_)
      cases hcl : containsSub l SUGGESTION_MARKER
      · rfl
      · exfalso
        have hinf : SUGGESTION_MARKER <:+: l := (containsSub_iff _ _).mp hcl
        have hlt : l <:+: text := mem_splitOnNl_infix text l hl
        have hc : containsSub text SUGGESTION_MARKER = true :=
          (containsSub_iff _ _).mpr (hinf.trans hlt)
        rw [hnm] at hc
        exact Bool.false_ne_true hc

/-- C5 witness: a concrete script with three suggestion lines yields the
three titles in order, and a markerless text yields the empty list. -/
theorem extractDirectives_three_or_empty_witness :
    extractDirectives
        (js "intro\n> SUGGESTION: Case A\n> SUGGESTION: Case B\n> SUGGESTION: Case C") =
      [js "Case A", js "Case B", js "Case C"] ∧
    extractDirectives (js "plain report with no markers") = [] :=
  ⟨(extractDirectives_three_or_empty _).1 [js "intro"] [] [] []
      (js "Case A") (js "Case B") (js "Case C")
      (by decide) (by decide) (by decide) (by decide),
   (extractDirectives_three_or_empty _).2 (by decide)⟩

/-- C6 counterexample: for a wiki wrapper-page URL the ScriptImage renderer
(cited by the claim) renders nothing at its terminal state, not the
view-source-page link-card the claim asserts. -/
theorem scriptImage_wiki_hidden_cex :
    isWikiWrapper wikiURL = true ∧
    scriptImageRender (some wikiURL) none (scriptImageMount (some wikiURL)).1 =
      ImgRender.hidden ∧
    ImgRender.hidden ≠ ImgRender.sourceLinkCard wikiURL none := by
  refine ⟨by decide, ?_, by decide⟩
  have hw : isWikiWrapper wikiURL = true := by decide
  simp [scriptImageMount, scriptImageRender, hw]

/-- C6 amended: for every wrapper-page URL neither image renderer issues a
direct image load attempt; the chat markdown renderer always renders the
view-source-page link-card, while the script renderer reaches the error
state and renders nothing. -/
theorem image_renderers_wiki_wrapper (src : JStr) (alt : Option JStr)
    (hw : isWikiWrapper src = true) :
    (markdownImageMount (some src)).2 = none ∧
    (scriptImageMount (some src)).2 = none ∧
    (∀ st : ImgStatus, markdownImageRender (some src) alt st = .sourceLinkCard src alt) ∧
    (scriptImageMount (some src)).1 = ImgStatus.error ∧
    scriptImageRender (some src) alt (scriptImageMount (some src)).1 = ImgRender.hidden := by
  refine ⟨?_, ?_, ?_, ?_, ?_⟩
  · simp [markdownImageMount, hw]
  · simp [scriptImageMount, hw]
  · intro st
    simp [markdownImageRender, hw]
  · simp [scriptImageMount, hw]
  · simp [scriptImageMount, scriptImageRender, hw]

/-- C6 amended witness: concrete evaluation at a wiki file-page URL. -/
theorem image_renderers_wiki_wrapper_witness :
    (markdownImageMount (some wikiURL)).2 = none ∧
    (scriptImageMount (some wikiURL)).2 = none ∧
    markdownImageRender (some wikiURL) none ImgStatus.loading =
      ImgRender.sourceLinkCard wikiURL none ∧
    scriptImageRender (some wikiURL) none (scriptImageMount (some wikiURL)).1 =
      ImgRender.hidden := by
  have h := image_renderers_wiki_wrapper wikiURL none (by decide)
  exact ⟨h.1, h.2.1, h.2.2.1 ImgStatus.loading, h.2.2.2.2⟩

/-- C7: for a link with an extracted 11-character video id whose thumbnail
probe resolves at or below the 120-pixel placeholder width, the embed
reaches the invalid terminal state, renders the video-restricted card with a
search-alternative title, and never renders the embedded player frame. -/
theorem youTubeEmbed_placeholder_restricted (vid : JStr) (title : Option JStr) (w : Nat)
    (_hlen : vid.length = 11) (hw : w ≤ 120) :
    youTubeEmbedEffect (some vid) (ThumbProbe.loadedWidth w) = some false ∧
    youTubeEmbedRender (some vid) title (some false) =
      YTRender.restrictedCard (title.getD (js "related video")) ∧
    (∀ v : JStr, youTubeEmbedRender (some vid) title none ≠ YTRender.playerFrame v) ∧
    (∀ v : JStr, youTubeEmbedRender (some vid) title (some false) ≠ YTRender.playerFrame v) := by
  refine ⟨?_, rfl, ?_, ?_⟩
  · simp only [youTubeEmbedEffect, Option.some.injEq, decide_eq_false_iff_not]
    omega
  · intro v h
    simp [youTubeEmbedRender] at h
  · intro v h
    simp [youTubeEmbedRender] at h

/-- C7 witness: a concrete 11-character id with a 120-pixel thumbnail. -/
theorem youTubeEmbed_placeholder_restricted_witness :
    youTubeEmbedEffect (some (js "dQw4w9WgXcQ")) (ThumbProbe.loadedWidth 120) = some false ∧
    youTubeEmbedRender (some (js "dQw4w9WgXcQ")) none (some false) =
      YTRender.restrictedCard (js "related video") :=
  ⟨(youTubeEmbed_placeholder_restricted (js "dQw4w9WgXcQ") none 120 (by decide) (by decide)).1,
   (youTubeEmbed_placeholder_restricted (js "dQw4w9WgXcQ") none 120 (by decide) (by decide)).2.1⟩

/-- Helper: coercion of an array with no null elements maps the defaults
over every element. -/
theorem coerceAll_no_null (query : JStr) : ∀ items : List JValue, JValue.null ∉ items →
    coerceAll query items = some (items.map (fun item =>
      { title := jsOrJV (jsMember item (js "title")) (.str query),
        url := jsOrJV (jsMember item (js "url")) (.str (js "#")),
        source := jsOrJV (jsMember item (js "source")) (.str (js "Web")) })) := by
  intro items
  induction items with
  | nil =>
    intro _
    rfl
  | cons item rest ih =>
    intro h
    have hni : item ≠ JValue.null := fun he => h (by simp [he])
    have hrest : JValue.null ∉ rest := fun hr => h (List.mem_cons_of_mem _ hr)
    have hcoerce : coerceItem query item = some
        { title := jsOrJV (jsMember item (js "title")) (.str query),
          url := jsOrJV (jsMember item (js "url")) (.str (js "#")),
          source := jsOrJV (jsMember item (js "source")) (.str (js "Web")) } := by
      cases item
      · exact absurd rfl hni
      · rfl
      · rfl
      · rfl
      · rfl
      · rfl
    simp [coerceAll, hcoerce, ih hrest]

/-- C4 amended: findStockFootage never throws and is all-or-nothing — an
upstream error, a missing bracketed substring, a JSON parse failure or a
non-array parse yield the empty list; an array with no null elements yields
every element with missing or falsy title, url and source defaulted to the
query string, the placeholder anchor and Web respectively (an array
containing a JSON null makes the element access throw, caught as the empty
list); the three behaviours of the specification's test vectors hold. -/
theorem findStockFootage_spec (query : JStr) :
    (∀ e : UpError, findStockFootage query (.error e) = []) ∧
    (∀ r : UpResponse,
      (bracketSlice (jsOr r.text []) = none → findStockFootage query (.ok r) = []) ∧
      (∀ sub : JStr, bracketSlice (jsOr r.text []) = some sub →
        (parseJSON sub = none → findStockFootage query (.ok r) = []) ∧
        (∀ v : JValue, parseJSON sub = some v → (∀ items, v ≠ JValue.arr items) →
          findStockFootage query (.ok r) = []) ∧
        (∀ items : List JValue, parseJSON sub = some (.arr items) → JValue.null ∉ items →
          findStockFootage query (.ok r) = items.map (fun item =>
            { title := jsOrJV (jsMember item (js "title")) (.str query),
              url := jsOrJV (jsMember item (js "url")) (.str (js "#")),
              source := jsOrJV (jsMember item (js "source")) (.str (js "Web")) })))) ∧
    (findStockFootage query
        (.ok { text := some (js "here are results: [\x7b\"title\":\"a\",\"url\":\"u\",\"source\":\"Pexels\"\x7d] thanks"),
               groundingChunks := none }) =
      [{ title := JValue.str (js "a"), url := JValue.str (js "u"),
         source := JValue.str (js "Pexels") }] ∧
     findStockFootage query (.ok { text := some (js "no array here"), groundingChunks := none }) = [] ∧
     findStockFootage query (.ok { text := some (js "[\x7bnot valid json\x7d]"), groundingChunks := none }) = []) := by
  refine ⟨fun e => rfl, fun r => ⟨?_, fun sub hsub => ⟨?_, ?_, ?_⟩⟩, rfl, rfl, rfl⟩
  · intro h
    simp [findStockFootage, h]
  · intro hparse
    simp [findStockFootage, hsub, hparse]
  · intro v hparse hne
    cases v with
    | arr items => exact absurd rfl (hne items)
    | null => simp [findStockFootage, hsub, hparse]
    | bool b => simp [findStockFootage, hsub, hparse]
    | num raw => simp [findStockFootage, hsub, hparse]
    | str s => simp [findStockFootage, hsub, hparse]
    | obj ms => simp [findStockFootage, hsub, hparse]
  · intro items hparse hnull
    simp [findStockFootage, hsub, hparse, coerceAll_no_null query items hnull]

/-- C4 counterexample: the bracketed substring [null] parses as a
one-element JSON array, yet findStockFootage returns the empty list —
the element is not returned with defaulted fields as the claim states,
because the property access on null throws into the catch. -/
theorem findStockFootage_null_cex :
    parseJSON (js "[null]") = some (JValue.arr [JValue.null]) ∧
    findStockFootage (js "city")
        (.ok { text := some (js "[null]"), groundingChunks := none }) = [] :=
  ⟨rfl, rfl⟩

/-- C4 witness: concrete evaluations through the amended theorem. -/
theorem findStockFootage_spec_witness :
    findStockFootage (js "city")
        (.ok { text := some (js "see [2] now"), groundingChunks := none }) =
      [{ title := JValue.str (js "city"), url := JValue.str (js "#"),
         source := JValue.str (js "Web") }] ∧
    findStockFootage (js "city") (.error { message := none, status := none }) = [] := by
  constructor
  · have h := ((findStockFootage_spec (js "city")).2.1
      { text := some (js "see [2] now"), groundingChunks := none }).2 (js "[2]") rfl
    have h2 := h.2.2 [JValue.num ['2']] rfl (by simp)
    rw [h2]
    rfl
  · exact (findStockFootage_spec (js "city")).1 { message := none, status := none }

/-- Helper: characters with different code points are not beq. -/
theorem beq_false_of_ne (c d : Char) (h : ¬ c = d) : (c == d) = false := by
  simp [h]

/-- Helper: a character whose code point lies in a range differs from one
outside it. -/
theorem char_ne_of_range (c d : Char) (lo hi : Nat) (h1 : lo ≤ c.toNat) (h2 : c.toNat ≤ hi)
    (hd : d.toNat < lo ∨ hi < d.toNat) : (c == d) = false := by
  apply beq_false_of_ne
  intro he
  subst he
  omega

/-- Helper: characters at code point 33 or above are not JSON whitespace. -/
theorem isJsonWs_false_of_ge (c : Char) (h : 33 ≤ c.toNat) : isJsonWs c = false := by
  simp only [isJsonWs, Bool.or_eq_false_iff]
  refine ⟨⟨⟨?_, ?_⟩, ?_⟩, ?_⟩ <;>
    (apply beq_false_of_ne; intro he; subst he; exact absurd h (by decide))

/-- Helper: skipWs is the identity on a non-whitespace head. -/
theorem skipWs_not_ws (c : Char) (t : JStr) (h : isJsonWs c = false) :
    skipWs (c :: t) = c :: t := by
  simp [skipWs, h]

/-- Helper: hexadecimal digit characters evaluate back to their value. -/
theorem hexDig_facts : ∀ k : Fin 16, isHexDigit (hexDig k) = true ∧ hexVal (hexDig k) = k.val := by
  decide

/-- Helper: decimal digit characters and their code points. -/
theorem digitCh_facts : ∀ k : Fin 10, isDigitCh (digitCh k) = true ∧ (digitCh k).toNat = 48 + k.val := by
  decide

/-- Helper: every escaped character is at least one character long. -/
theorem escapeChar_len_pos (c : Char) : 1 ≤ (escapeChar c).length := by
  unfold escapeChar
  split
  · simp
  · split
    · simp
    · split
      · simp
      · split
        · simp
        · split
          · simp
          · split
            · simp
            · split
              · simp
              · split
                · simp
                · simp

/-- Helper: escaping does not shorten a string. -/
theorem len_le_escaped : ∀ s : JStr, s.length ≤ ((s.map escapeChar).flatten).length := by
  intro s
  induction s with
  | nil => simp
  | cons c s' ih =>
    have h1 := escapeChar_len_pos c
    simp only [List.map_cons, List.flatten_cons, List.length_append, List.length_cons]
    omega

/-- Helper: round trip of the fueled string-body parser over the escaper. -/
theorem parseStrBodyF_ser : ∀ (s : JStr) (fuel : Nat) (rest : JStr), s.length < fuel →
    parseStrBodyF fuel ((s.map escapeChar).flatten ++ ('"' :: rest)) = some (s, rest) := by
  intro s
  induction s with
  | nil =>
    intro fuel rest hf
    cases fuel with
    | zero => omega
    | succ f => rfl
  | cons c s' ih =>
    intro fuel rest hf
    cases fuel with
    | zero => omega
    | succ f =>
      have hf' : s'.length < f := by
        simp only [List.length_cons] at hf
        omega
      have hih := ih f rest hf'
      have hflat : ((c :: s').map escapeChar).flatten ++ ('"' :: rest) =
          escapeChar c ++ ((s'.map escapeChar).flatten ++ ('"' :: rest)) := by
        simp [List.append_assoc]
      rw [hflat]
      by_cases h1 : c = '"'
      · subst h1
        show parseStrBodyF (f + 1)
          ('\\' :: '"' :: ((s'.map escapeChar).flatten ++ ('"' :: rest))) = _
        rw [show parseStrBodyF (f + 1)
            ('\\' :: '"' :: ((s'.map escapeChar).flatten ++ ('"' :: rest))) =
            (parseStrBodyF f ((s'.map escapeChar).flatten ++ ('"' :: rest))).map
              (fun p => ('"' :: p.1, p.2)) from rfl, hih]
        rfl
      · by_cases h2 : c = '\\'
        · subst h2
          show parseStrBodyF (f + 1)
            ('\\' :: '\\' :: ((s'.map escapeChar).flatten ++ ('"' :: rest))) = _
          rw [show parseStrBodyF (f + 1)
              ('\\' :: '\\' :: ((s'.map escapeChar).flatten ++ ('"' :: rest))) =
              (parseStrBodyF f ((s'.map escapeChar).flatten ++ ('"' :: rest))).map
                (fun p => ('\\' :: p.1, p.2)) from rfl, hih]
          rfl
        · by_cases h3 : c = '\x08'
          · subst h3
            show parseStrBodyF (f + 1)
              ('\\' :: 'b' :: ((s'.map escapeChar).flatten ++ ('"' :: rest))) = _
            rw [show parseStrBodyF (f + 1)
                ('\\' :: 'b' :: ((s'.map escapeChar).flatten ++ ('"' :: rest))) =
                (parseStrBodyF f ((s'.map escapeChar).flatten ++ ('"' :: rest))).map
                  (fun p => ('\x08' :: p.1, p.2)) from rfl, hih]
            rfl
          · by_cases h4 : c = '\x0c'
            · subst h4
              show parseStrBodyF (f + 1)
                ('\\' :: 'f' :: ((s'.map escapeChar).flatten ++ ('"' :: rest))) = _
              rw [show parseStrBodyF (f + 1)
                  ('\\' :: 'f' :: ((s'.map escapeChar).flatten ++ ('"' :: rest))) =
                  (parseStrBodyF f ((s'.map escapeChar).flatten ++ ('"' :: rest))).map
                    (fun p => ('\x0c' :: p.1, p.2)) from rfl, hih]
              rfl
            · by_cases h5 : c = '\n'
              · subst h5
                show parseStrBodyF (f + 1)
                  ('\\' :: 'n' :: ((s'.map escapeChar).flatten ++ ('"' :: rest))) = _
                rw [show parseStrBodyF (f + 1)
                    ('\\' :: 'n' :: ((s'.map escapeChar).flatten ++ ('"' :: rest))) =
                    (parseStrBodyF f ((s'.map escapeChar).flatten ++ ('"' :: rest))).map
                      (fun p => ('\n' :: p.1, p.2)) from rfl, hih]
                rfl
              · by_cases h6 : c = '\r'
                · subst h6
                  show parseStrBodyF (f + 1)
                    ('\\' :: 'r' :: ((s'.map escapeChar).flatten ++ ('"' :: rest))) = _
                  rw [show parseStrBodyF (f + 1)
                      ('\\' :: 'r' :: ((s'.map escapeChar).flatten ++ ('"' :: rest))) =
                      (parseStrBodyF f ((s'.map escapeChar).flatten ++ ('"' :: rest))).map
                        (fun p => ('\r' :: p.1, p.2)) from rfl, hih]
                  rfl
                · by_cases h7 : c = '\t'
                  · subst h7
                    show parseStrBodyF (f + 1)
                      ('\\' :: 't' :: ((s'.map escapeChar).flatten ++ ('"' :: rest))) = _
                    rw [show parseStrBodyF (f + 1)
                        ('\\' :: 't' :: ((s'.map escapeChar).flatten ++ ('"' :: rest))) =
                        (parseStrBodyF f ((s'.map escapeChar).flatten ++ ('"' :: rest))).map
                          (fun p => ('\t' :: p.1, p.2)) from rfl, hih]
                    rfl
                  · by_cases h8 : c.toNat < 32
                    · have hesc : escapeChar c =
                          ['\\', 'u', '0', '0', hexDig (c.toNat / 16), hexDig (c.toNat % 16)] := by
                        simp [escapeChar, h1, h2, h3, h4, h5, h6, h7, h8]
                      rw [hesc]
                      have hdiv : c.toNat / 16 < 16 := by omega
                      have hmod : c.toNat % 16 < 16 := by omega
                      have hfd := hexDig_facts ⟨c.toNat / 16, hdiv⟩
                      have hfm := hexDig_facts ⟨c.toNat % 16, hmod⟩
                      rw [show ('\\' :: 'u' :: '0' :: '0' :: hexDig (c.toNat / 16) ::
                          hexDig (c.toNat % 16) :: []) ++
                          ((s'.map escapeChar).flatten ++ ('"' :: rest)) =
                          '\\' :: 'u' :: '0' :: '0' :: hexDig (c.toNat / 16) ::
                          hexDig (c.toNat % 16) ::
                          ((s'.map escapeChar).flatten ++ ('"' :: rest)) from rfl]
                      rw [show parseStrBodyF (f + 1)
                          ('\\' :: 'u' :: '0' :: '0' :: hexDig (c.toNat / 16) ::
                            hexDig (c.toNat % 16) ::
                            ((s'.map escapeChar).flatten ++ ('"' :: rest))) =
                          (match parseHex4 ('0' :: '0' :: hexDig (c.toNat / 16) ::
                              hexDig (c.toNat % 16) ::
                              ((s'.map escapeChar).flatten ++ ('"' :: rest))) with
                          | none => none
                          | some (n, rest3) =>
                            if n < 55296 ∨ 57343 < n then
                              (parseStrBodyF f rest3).map (fun p => (Char.ofNat n :: p.1, p.2))
                            else none) from rfl]
                      rw [show parseHex4 ('0' :: '0' :: hexDig (c.toNat / 16) ::
                          hexDig (c.toNat % 16) ::
                          ((s'.map escapeChar).flatten ++ ('"' :: rest))) =
                          (if isHexDigit '0' && isHexDigit '0' && isHexDigit (hexDig (c.toNat / 16))
                              && isHexDigit (hexDig (c.toNat % 16)) then
                            some (((hexVal '0' * 16 + hexVal '0') * 16 +
                              hexVal (hexDig (c.toNat / 16))) * 16 + hexVal (hexDig (c.toNat % 16)),
                              (s'.map escapeChar).flatten ++ ('"' :: rest))
                          else none) from rfl]
                      rw [hfd.2, hfm.2]
                      simp only [hfd.1, hfm.1, show isHexDigit '0' = true from by decide,
                        Bool.and_self, Bool.and_true, Bool.true_and, if_true]
                      rw [show ((hexVal '0' * 16 + hexVal '0') * 16 + c.toNat / 16) * 16 +
                          c.toNat % 16 = c.toNat from by
                        have := Nat.div_add_mod c.toNat 16
                        simp only [show hexVal '0' = 0 from by decide]
                        omega]
                      rw [if_pos (Or.inl (by omega : c.toNat < 55296)), hih]
                      simp [Char.ofNat_toNat]
                    · have hesc : escapeChar c = [c] := by
                        simp [escapeChar, h1, h2, h3, h4, h5, h6, h7, h8]
                      rw [hesc]
                      rw [show ([c] : JStr) ++ ((s'.map escapeChar).flatten ++ ('"' :: rest)) =
                          c :: ((s'.map escapeChar).flatten ++ ('"' :: rest)) from rfl]
                      rw [show parseStrBodyF (f + 1)
                          (c :: ((s'.map escapeChar).flatten ++ ('"' :: rest))) =
                          (if c == '"' then some ([], (s'.map escapeChar).flatten ++ ('"' :: rest))
                          else if c == '\\' then
                            (match (s'.map escapeChar).flatten ++ ('"' :: rest) with
                            | [] => none
                            | e :: rest2 =>
                              if e == '"' then
                                (parseStrBodyF f rest2).map (fun p => ('"' :: p.1, p.2))
                              else if e == '\\' then
                                (parseStrBodyF f rest2).map (fun p => ('\\' :: p.1, p.2))
                              else if e == '/' then
                                (parseStrBodyF f rest2).map (fun p => ('/' :: p.1, p.2))
                              else if e == 'b' then
                                (parseStrBodyF f rest2).map (fun p => ('\x08' :: p.1, p.2))
                              else if e == 'f' then
                                (parseStrBodyF f rest2).map (fun p => ('\x0c' :: p.1, p.2))
                              else if e == 'n' then
                                (parseStrBodyF f rest2).map (fun p => ('\n' :: p.1, p.2))
                              else if e == 'r' then
                                (parseStrBodyF f rest2).map (fun p => ('\r' :: p.1, p.2))
                              else if e == 't' then
                                (parseStrBodyF f rest2).map (fun p => ('\t' :: p.1, p.2))
                              else if e == 'u' then
                                match parseHex4 rest2 with
                                | none => none
                                | some (n, rest3) =>
                                  if n < 55296 ∨ 57343 < n then
                                    (parseStrBodyF f rest3).map
                                      (fun p => (Char.ofNat n :: p.1, p.2))
                                  else none
                              else none)
                          else if c.toNat < 32 then none
                          else (parseStrBodyF f ((s'.map escapeChar).flatten ++ ('"' :: rest))).map
                            (fun p => (c :: p.1, p.2))) from rfl]
                      rw [if_neg (by simp [h1]), if_neg (by simp [h2]), if_neg h8, hih]
                      rfl

/-- Helper: round trip of the string-body parser over the escaper. -/
theorem parseStrBody_ser (s rest : JStr) :
    parseStrBody ((s.map escapeChar).flatten ++ ('"' :: rest)) = some (s, rest) := by
  unfold parseStrBody
  apply parseStrBodyF_ser
  have := len_le_escaped s
  simp only [List.length_append, List.length_cons]
  omega

/-- Helper: takeDigits splits a digit prefix off a non-digit remainder. -/
theorem takeDigits_split : ∀ (ds rest : JStr), (∀ c ∈ ds, isDigitCh c = true) →
    (rest = [] ∨ ∃ c t, rest = c :: t ∧ isDigitCh c = false) →
    takeDigits (ds ++ rest) = (ds, rest) := by
  intro ds
  induction ds with
  | nil =>
    intro rest _ hrest
    rcases hrest with h | ⟨c, t, h, hc⟩
    · subst h
      rfl
    · subst h
      simp [takeDigits, hc]
  | cons d ds' ih =>
    intro rest hds hrest
    have hd : isDigitCh d = true := hds d (by simp)
    have hds' : ∀ c ∈ ds', isDigitCh c = true := fun c hc => hds c (by simp [hc])
    simp [takeDigits, hd, ih rest hds' hrest]

/-- Helper: a canonical decimal lexeme lexes back to itself before a safe
remainder. -/
theorem lexNumber_good (raw : JStr) (hg : goodNum raw = true) (rest : JStr)
    (hr : numSafe rest = true) : lexNumber (raw ++ rest) = some (raw, rest) := by
  have hrest_shape : rest = [] ∨ ∃ c t, rest = c :: t ∧ isDigitCh c = false ∧
      (c == '.') = false ∧ (c == 'e') = false ∧ (c == 'E') = false := by
    cases rest with
    | nil => exact Or.inl rfl
    | cons c t =>
      simp only [numSafe, Bool.not_eq_true', Bool.or_eq_false_iff] at hr
      exact Or.inr ⟨c, t, rfl, hr.1.1.1, hr.1.1.2, hr.1.2, hr.2⟩
  have hfrac : lexFrac rest = some ([], rest) := by
    rcases hrest_shape with h | ⟨c, t, h, _, hdot, _, _⟩
    · subst h
      rfl
    · subst h
      simp [lexFrac, hdot]
  have hexp : lexExp rest = some ([], rest) := by
    rcases hrest_shape with h | ⟨c, t, h, _, _, he, hE⟩
    · subst h
      rfl
    · subst h
      simp [lexExp, he, hE]
  have hdigrest : rest = [] ∨ ∃ c t, rest = c :: t ∧ isDigitCh c = false := by
    rcases hrest_shape with h | ⟨c, t, h, hd, _, _, _⟩
    · exact Or.inl h
    · exact Or.inr ⟨c, t, h, hd⟩
  rcases raw with _ | ⟨c, cs⟩
  · simp [goodNum] at hg
  · by_cases hc0 : c = '0'
    · subst hc0
      have hcs : cs = [] := by
        simpa [goodNum, List.isEmpty_iff] using hg
      subst hcs
      show lexNumber ('0' :: rest) = some (['0'], rest)
      simp [lexNumber, lexUnsigned, lexInt, hfrac, hexp]
    · have hg2 : (49 ≤ c.toNat ∧ c.toNat ≤ 57) ∧ cs.all isDigitCh = true := by
        simpa [goodNum, beq_false_of_ne c '0' hc0] using hg
      have hcsall : ∀ x ∈ cs, isDigitCh x = true := by
        simpa [List.all_eq_true] using hg2.2
      have htake : takeDigits (cs ++ rest) = (cs, rest) :=
        takeDigits_split cs rest hcsall hdigrest
      have hcd : isDigitCh c = true := by
        simp [isDigitCh]
        omega
      show lexNumber (c :: (cs ++ rest)) = some (c :: cs, rest)
      simp [lexNumber, lexUnsigned, lexInt, htake, hfrac, hexp,
        char_ne_of_range c '-' 49 57 hg2.1.1 hg2.1.2 (by decide),
        char_ne_of_range c '0' 49 57 hg2.1.1 hg2.1.2 (by decide), hcd]

/-- Helper: canonical lexemes have a digit head. -/
theorem goodNum_head (c : Char) (cs : JStr) (h : goodNum (c :: cs) = true) :
    48 ≤ c.toNat ∧ c.toNat ≤ 57 := by
  by_cases hc : c = '0'
  · subst hc
    exact ⟨by decide, by decide⟩
  · have h2 : ((49 ≤ c.toNat ∧ c.toNat ≤ 57) ∧ cs.all isDigitCh = true) := by
      simpa [goodNum, beq_false_of_ne c '0' hc] using h
    exact ⟨by omega, h2.1.2⟩

/-- Helper: a serialized well-formed value starts with a character that is
not whitespace and not a closing bracket. -/
theorem serialize_head (v : JValue) (hwf : wfJ v = true) :
    ∃ c t, serialize v = c :: t ∧ isJsonWs c = false ∧ (c == ']') = false := by
  cases v with
  | null => exact ⟨'n', _, rfl, by decide, by decide⟩
  | bool b =>
    cases b
    · exact ⟨'f', _, rfl, by decide, by decide⟩
    · exact ⟨'t', _, rfl, by decide, by decide⟩
  | num raw =>
    rcases raw with _ | ⟨c, cs⟩
    · simp [wfJ, goodNum] at hwf
    · have hd := goodNum_head c cs (by simpa [wfJ] using hwf)
      exact ⟨c, cs, rfl, isJsonWs_false_of_ge c (by omega),
        char_ne_of_range c ']' 48 57 hd.1 hd.2 (by decide)⟩
  | str s => exact ⟨'"', _, rfl, by decide, by decide⟩
  | arr vs => exact ⟨'[', _, rfl, by decide, by decide⟩
  | obj ms => exact ⟨lbrace, _, rfl, by decide, by decide⟩

/-- Helper: values have positive size measure. -/
theorem sizeJ_pos : ∀ v : JValue, 1 ≤ sizeJ v := by
  intro v
  cases v <;> simp [sizeJ]

/-- Helper: element lists have positive size measure. -/
theorem sizeL_pos : ∀ vs : List JValue, 1 ≤ sizeL vs := by
  intro vs
  cases vs <;> simp [sizeL]

/-- Helper: member lists have positive size measure. -/
theorem sizeM_pos : ∀ ms : List (JStr × JValue), 1 ≤ sizeM ms := by
  intro ms
  rcases ms with _ | ⟨⟨k, v⟩, ms⟩ <;> simp [sizeM]

mutual

/-- Helper: the size measure of a well-formed value is bounded by its
serialization length. -/
theorem sizeJ_le_len : ∀ v : JValue, wfJ v = true → sizeJ v ≤ (serialize v).length
  | .null, _ => by simp [sizeJ, serialize, js]
  | .bool b, _ => by cases b <;> simp [sizeJ, serialize, js]
  | .num raw, h => by
    rcases raw with _ | ⟨c, cs⟩
    · simp [wfJ, goodNum] at h
    · simp [sizeJ, serialize]
  | .str s, _ => by
    simp [sizeJ, serialize, serStr]
  | .arr vs, h => by
    have hl := sizeL_le_len vs (by simpa [wfJ] using h)
    simp only [sizeJ, serialize, List.length_cons, List.length_append]
    omega
  | .obj ms, h => by
    have hm := sizeM_le_len ms (by simpa [wfJ] using h)
    simp only [sizeJ, serialize, List.length_cons, List.length_append]
    omega

/-- Helper: size bound for serialized element lists. -/
theorem sizeL_le_len : ∀ vs : List JValue, wfL vs = true →
    sizeL vs ≤ (serializeElems vs).length + 1
  | [], _ => by simp [sizeL, serializeElems]
  | [v], h => by
    have hv := sizeJ_le_len v (by simpa [wfL] using h)
    have hp := sizeJ_pos v
    have he : sizeL [v] = 1 + max (sizeJ v) 1 := by simp [sizeL]
    simp only [serializeElems]
    omega
  | v :: v' :: vs, h => by
    have h1 : wfJ v = true ∧ wfL (v' :: vs) = true := by simpa [wfL] using h
    have hv := sizeJ_le_len v h1.1
    have hl := sizeL_le_len (v' :: vs) h1.2
    have he : sizeL (v :: v' :: vs) = 1 + max (sizeJ v) (sizeL (v' :: vs)) := by simp [sizeL]
    have hs : serializeElems (v :: v' :: vs) = serialize v ++ ',' :: serializeElems (v' :: vs) :=
      rfl
    rw [he, hs]
    simp only [List.length_append, List.length_cons]
    omega

/-- Helper: size bound for serialized member lists. -/
theorem sizeM_le_len : ∀ ms : List (JStr × JValue), wfM ms = true →
    sizeM ms ≤ (serializeMembers ms).length + 1
  | [], _ => by simp [sizeM, serializeMembers]
  | [(k, v)], h => by
    have hv := sizeJ_le_len v (by simpa [wfM] using h)
    have hp := sizeJ_pos v
    have he : sizeM [(k, v)] = 1 + max (sizeJ v) 1 := by simp [sizeM]
    have hs : serializeMembers [(k, v)] = serStr k ++ ':' :: serialize v := rfl
    rw [he, hs]
    simp only [List.length_append, List.length_cons]
    omega
  | (k, v) :: m :: ms, h => by
    have h1 : wfJ v = true ∧ wfM (m :: ms) = true := by simpa [wfM] using h
    have hv := sizeJ_le_len v h1.1
    have hm := sizeM_le_len (m :: ms) h1.2
    have he : sizeM ((k, v) :: m :: ms) = 1 + max (sizeJ v) (sizeM (m :: ms)) := by simp [sizeM]
    have hs : serializeMembers ((k, v) :: m :: ms) =
        serStr k ++ ':' :: serialize v ++ ',' :: serializeMembers (m :: ms) := rfl
    rw [he, hs]
    simp only [List.length_append, List.length_cons]
    omega

end

/-- Helper: unfolding equation of parseValue at positive fuel. -/
theorem parseValue_succ (f : Nat) (s : JStr) :
    parseValue (f + 1) s =
      (match skipWs s with
      | [] => none
      | c :: cs =>
        if c == 'n' then
          if startsWithL cs (js "ull") then some (.null, cs.drop 3) else none
        else if c == 't' then
          if startsWithL cs (js "rue") then some (.bool true, cs.drop 3) else none
        else if c == 'f' then
          if startsWithL cs (js "alse") then some (.bool false, cs.drop 4) else none
        else if c == '"' then
          (parseStrBody cs).map (fun p => (JValue.str p.1, p.2))
        else if c == '[' then
          match skipWs cs with
          | [] => none
          | c2 :: cs2 =>
            if c2 == ']' then some (.arr [], cs2)
            else (parseElems f (c2 :: cs2)).map (fun p => (JValue.arr p.1, p.2))
        else if c == lbrace then
          match skipWs cs with
          | [] => none
          | c2 :: cs2 =>
            if c2 == rbrace then some (.obj [], cs2)
            else (parseMembers f (c2 :: cs2)).map (fun p => (JValue.obj p.1, p.2))
        else
          (lexNumber (c :: cs)).map (fun p => (JValue.num p.1, p.2))) := rfl

/-- Helper: unfolding equation of parseValue on a non-whitespace head. -/
theorem parseValue_cons (f : Nat) (c : Char) (cs : JStr) (h : isJsonWs c = false) :
    parseValue (f + 1) (c :: cs) =
      (if c == 'n' then
        if startsWithL cs (js "ull") then some (.null, cs.drop 3) else none
      else if c == 't' then
        if startsWithL cs (js "rue") then some (.bool true, cs.drop 3) else none
      else if c == 'f' then
        if startsWithL cs (js "alse") then some (.bool false, cs.drop 4) else none
      else if c == '"' then
        (parseStrBody cs).map (fun p => (JValue.str p.1, p.2))
      else if c == '[' then
        match skipWs cs with
        | [] => none
        | c2 :: cs2 =>
          if c2 == ']' then some (.arr [], cs2)
          else (parseElems f (c2 :: cs2)).map (fun p => (JValue.arr p.1, p.2))
      else if c == lbrace then
        match skipWs cs with
        | [] => none
        | c2 :: cs2 =>
          if c2 == rbrace then some (.obj [], cs2)
          else (parseMembers f (c2 :: cs2)).map (fun p => (JValue.obj p.1, p.2))
      else
        (lexNumber (c :: cs)).map (fun p => (JValue.num p.1, p.2))) := by
  rw [parseValue_succ, skipWs_not_ws c cs h]

/-- Helper: unfolding equation of parseElems at positive fuel. -/
theorem parseElems_succ (f : Nat) (s : JStr) :
    parseElems (f + 1) s =
      (match parseValue f s with
      | none => none
      | some (v, r) =>
        match skipWs r with
        | [] => none
        | c :: r2 =>
          if c == ',' then (parseElems f r2).map (fun p => (v :: p.1, p.2))
          else if c == ']' then some ([v], r2)
          else none) := rfl

/-- Helper: unfolding equation of parseMembers at positive fuel. -/
theorem parseMembers_succ (f : Nat) (s : JStr) :
    parseMembers (f + 1) s =
      (match skipWs s with
      | [] => none
      | c :: cs =>
        if c == '"' then
          match parseStrBody cs with
          | none => none
          | some (k, r1) =>
            match skipWs r1 with
            | [] => none
            | c2 :: r2 =>
              if c2 == ':' then
                match parseValue f r2 with
                | none => none
                | some (v, r3) =>
                  match skipWs r3 with
                  | [] => none
                  | c3 :: r4 =>
                    if c3 == ',' then (parseMembers f r4).map (fun (p : List (JStr × JValue) × JStr) => ((k, v) :: p.1, p.2))
                    else if c3 == rbrace then some ([(k, v)], r4)
                    else none
              else none
        else none) := rfl

/-- Helper: the round trip of the fueled parser over the serializer, for
well-formed values, element lists and member lists, given enough fuel. -/
theorem parse_ser : ∀ f : Nat,
    (∀ v : JValue, wfJ v = true → sizeJ v ≤ f → ∀ rest : JStr, numSafe rest = true →
      parseValue f (serialize v ++ rest) = some (v, rest)) ∧
    (∀ vs : List JValue, wfL vs = true → sizeL vs ≤ f → vs ≠ [] → ∀ rest : JStr,
      parseElems f (serializeElems vs ++ (']' :: rest)) = some (vs, rest)) ∧
    (∀ ms : List (JStr × JValue), wfM ms = true → sizeM ms ≤ f → ms ≠ [] → ∀ rest : JStr,
      parseMembers f (serializeMembers ms ++ (rbrace :: rest)) = some (ms, rest)) := by
  intro f
  induction f with
  | zero =>
    refine ⟨fun v _ hs _ _ => ?_, fun vs _ hs hne _ => ?_, fun ms _ hs hne _ => ?_⟩
    · exact absurd hs (by have := sizeJ_pos v; omega)
    · exact absurd hs (by have := sizeL_pos vs; omega)
    · exact absurd hs (by have := sizeM_pos ms; omega)
  | succ f ih =>
    obtain ⟨ihv, ihl, ihm⟩ := ih
    refine ⟨?_, ?_, ?_⟩
    · intro v hwf hsz rest hrest
      cases v with
      | null => rfl
      | bool b => cases b <;> rfl
      | num raw =>
        rcases raw with _ | ⟨c, cs⟩
        · simp [wfJ, goodNum] at hwf
        · have hg : goodNum (c :: cs) = true := by simpa [wfJ] using hwf
          have hd := goodNum_head c cs hg
          have heq : serialize (JValue.num (c :: cs)) ++ rest = c :: (cs ++ rest) := rfl
          rw [heq, parseValue_cons f c (cs ++ rest) (isJsonWs_false_of_ge c (by omega))]
          rw [if_neg (by simp [char_ne_of_range c 'n' 48 57 hd.1 hd.2 (by decide)]),
            if_neg (by simp [char_ne_of_range c 't' 48 57 hd.1 hd.2 (by decide)]),
            if_neg (by simp [char_ne_of_range c 'f' 48 57 hd.1 hd.2 (by decide)]),
            if_neg (by simp [char_ne_of_range c '"' 48 57 hd.1 hd.2 (by decide)]),
            if_neg (by simp [char_ne_of_range c '[' 48 57 hd.1 hd.2 (by decide)]),
            if_neg (by simp [char_ne_of_range c lbrace 48 57 hd.1 hd.2 (by decide)])]
          rw [show c :: (cs ++ rest) = (c :: cs) ++ rest from rfl,
            lexNumber_good (c :: cs) hg rest hrest]
          rfl
      | str s =>
        have heq : serialize (JValue.str s) ++ rest =
            '"' :: ((s.map escapeChar).flatten ++ ('"' :: rest)) := by
          simp [serialize, serStr, List.append_assoc]
        rw [heq]
        rw [show parseValue (f + 1) ('"' :: ((s.map escapeChar).flatten ++ ('"' :: rest))) =
            (parseStrBody ((s.map escapeChar).flatten ++ ('"' :: rest))).map
              (fun p => (JValue.str p.1, p.2)) from rfl]
        rw [parseStrBody_ser s rest]
        rfl
      | arr vs =>
        cases vs with
        | nil => rfl
        | cons v vs' =>
          have hwfl : wfL (v :: vs') = true := by simpa [wfJ] using hwf
          have hwfv : wfJ v = true := by
            have := hwfl
            simp only [wfL, Bool.and_eq_true] at this
            exact this.1
          have hszl : sizeL (v :: vs') ≤ f := by
            have h1 : sizeJ (JValue.arr (v :: vs')) = 1 + sizeL (v :: vs') := rfl
            omega
          obtain ⟨c0, t0, hser, hws0, hne0⟩ := serialize_head v hwfv
          have hX : ∃ T : JStr, serializeElems (v :: vs') ++ (']' :: rest) = c0 :: T := by
            cases vs' with
            | nil =>
              refine ⟨t0 ++ (']' :: rest), ?_⟩
              show serialize v ++ (']' :: rest) = _
              rw [hser]
              rfl
            | cons v2 vs2 =>
              refine ⟨t0 ++ (',' :: serializeElems (v2 :: vs2)) ++ (']' :: rest), ?_⟩
              show (serialize v ++ ',' :: serializeElems (v2 :: vs2)) ++ (']' :: rest) = _
              rw [hser]
              simp [List.append_assoc]
          obtain ⟨T, hT⟩ := hX
          have heq : serialize (JValue.arr (v :: vs')) ++ rest =
              '[' :: (serializeElems (v :: vs') ++ (']' :: rest)) := by
            simp [serialize, List.append_assoc]
          rw [heq, hT]
          rw [show parseValue (f + 1) ('[' :: (c0 :: T)) =
              (match skipWs (c0 :: T) with
              | [] => none
              | c2 :: cs2 =>
                if c2 == ']' then some (JValue.arr [], cs2)
                else (parseElems f (c2 :: cs2)).map (fun p => (JValue.arr p.1, p.2)))
              from rfl]
          rw [skipWs_not_ws c0 T hws0]
          show (if c0 == ']' then some (JValue.arr [], T)
            else (parseElems f (c0 :: T)).map (fun p => (JValue.arr p.1, p.2))) = _
          rw [if_neg (by simp only [hne0]; exact Bool.false_ne_true), ← hT,
            ihl (v :: vs') hwfl hszl (by simp) rest]
          rfl
      | obj ms =>
        cases ms with
        | nil => rfl
        | cons m ms' =>
          obtain ⟨k, v⟩ := m
          have hwfm : wfM ((k, v) :: ms') = true := by simpa [wfJ] using hwf
          have hszm : sizeM ((k, v) :: ms') ≤ f := by
            have h1 : sizeJ (JValue.obj ((k, v) :: ms')) = 1 + sizeM ((k, v) :: ms') := rfl
            omega
          have hX : ∃ T : JStr, serializeMembers ((k, v) :: ms') ++ (rbrace :: rest) =
              '"' :: T := by
            cases ms' with
            | nil =>
              refine ⟨((k.map escapeChar).flatten ++ ['"']) ++ (':' :: serialize v) ++
                (rbrace :: rest), ?_⟩
              show (serStr k ++ ':' :: serialize v) ++ (rbrace :: rest) = _
              simp [serStr, List.append_assoc]
            | cons m2 ms2 =>
              refine ⟨((k.map escapeChar).flatten ++ ['"']) ++ (':' :: serialize v) ++
                (',' :: serializeMembers (m2 :: ms2)) ++ (rbrace :: rest), ?_⟩
              show (serStr k ++ ':' :: serialize v ++ ',' :: serializeMembers (m2 :: ms2)) ++
                (rbrace :: rest) = _
              simp [serStr, List.append_assoc]
          obtain ⟨T, hT⟩ := hX
          have heq : serialize (JValue.obj ((k, v) :: ms')) ++ rest =
              lbrace :: (serializeMembers ((k, v) :: ms') ++ (rbrace :: rest)) := by
            simp [serialize, List.append_assoc]
          rw [heq, hT]
          rw [show parseValue (f + 1) (lbrace :: ('"' :: T)) =
              (parseMembers f ('"' :: T)).map (fun p => (JValue.obj p.1, p.2)) from rfl]
          rw [← hT, ihm ((k, v) :: ms') hwfm hszm (by simp) rest]
          rfl
    · intro vs hwf hsz hne rest
      rcases vs with _ | ⟨v, vs'⟩
      · exact absurd rfl hne
      have hw : wfJ v = true ∧ wfL vs' = true := by
        simpa only [wfL, Bool.and_eq_true] using hwf
      cases vs' with
      | nil =>
        have hszv : sizeJ v ≤ f := by
          have h1 : sizeL [v] = 1 + max (sizeJ v) (sizeL []) := rfl
          have h2 : sizeL ([] : List JValue) = 1 := rfl
          omega
        rw [show serializeElems [v] ++ (']' :: rest) = serialize v ++ (']' :: rest) from rfl]
        rw [parseElems_succ, ihv v hw.1 hszv (']' :: rest) rfl]
        rfl
      | cons v2 vs2 =>
        have hszv : sizeJ v ≤ f := by
          have h1 : sizeL (v :: v2 :: vs2) = 1 + max (sizeJ v) (sizeL (v2 :: vs2)) := rfl
          omega
        have hszl : sizeL (v2 :: vs2) ≤ f := by
          have h1 : sizeL (v :: v2 :: vs2) = 1 + max (sizeJ v) (sizeL (v2 :: vs2)) := rfl
          omega
        have heq : serializeElems (v :: v2 :: vs2) ++ (']' :: rest) =
            serialize v ++ (',' :: (serializeElems (v2 :: vs2) ++ (']' :: rest))) := by
          show (serialize v ++ ',' :: serializeElems (v2 :: vs2)) ++ (']' :: rest) = _
          simp [List.append_assoc]
        rw [heq, parseElems_succ,
          ihv v hw.1 hszv (',' :: (serializeElems (v2 :: vs2) ++ (']' :: rest))) rfl]
        show (parseElems f (serializeElems (v2 :: vs2) ++ (']' :: rest))).map
          (fun p => (v :: p.1, p.2)) = _
        rw [ihl (v2 :: vs2) hw.2 hszl (by simp) rest]
        rfl
    · intro ms hwf hsz hne rest
      rcases ms with _ | ⟨⟨k, v⟩, ms'⟩
      · exact absurd rfl hne
      have hw : wfJ v = true ∧ wfM ms' = true := by
        simpa only [wfM, Bool.and_eq_true] using hwf
      cases ms' with
      | nil =>
        have hszv : sizeJ v ≤ f := by
          have h1 : sizeM [(k, v)] = 1 + max (sizeJ v) (sizeM []) := rfl
          have h2 : sizeM ([] : List (JStr × JValue)) = 1 := rfl
          omega
        have heq : serializeMembers [(k, v)] ++ (rbrace :: rest) =
            '"' :: ((k.map escapeChar).flatten ++
              ('"' :: (':' :: (serialize v ++ (rbrace :: rest))))) := by
          show (serStr k ++ ':' :: serialize v) ++ (rbrace :: rest) = _
          simp [serStr, List.append_assoc]
        rw [heq, parseMembers_succ]
        show (match parseStrBody ((k.map escapeChar).flatten ++
            ('"' :: (':' :: (serialize v ++ (rbrace :: rest))))) with
          | none => none
          | some (k, r1) =>
            match skipWs r1 with
            | [] => none
            | c2 :: r2 =>
              if c2 == ':' then
                match parseValue f r2 with
                | none => none
                | some (v, r3) =>
                  match skipWs r3 with
                  | [] => none
                  | c3 :: r4 =>
                    if c3 == ',' then (parseMembers f r4).map (fun (p : List (JStr × JValue) × JStr) => ((k, v) :: p.1, p.2))
                    else if c3 == rbrace then some ([(k, v)], r4)
                    else none
              else none) = _
        rw [parseStrBody_ser k (':' :: (serialize v ++ (rbrace :: rest)))]
        show (match parseValue f (serialize v ++ (rbrace :: rest)) with
          | none => none
          | some (v, r3) =>
            match skipWs r3 with
            | [] => none
            | c3 :: r4 =>
              if c3 == ',' then (parseMembers f r4).map (fun (p : List (JStr × JValue) × JStr) => ((k, v) :: p.1, p.2))
              else if c3 == rbrace then some ([(k, v)], r4)
              else none) = _
        rw [ihv v hw.1 hszv (rbrace :: rest) rfl]
        rfl
      | cons m2 ms2 =>
        have hszv : sizeJ v ≤ f := by
          have h1 : sizeM ((k, v) :: m2 :: ms2) = 1 + max (sizeJ v) (sizeM (m2 :: ms2)) := rfl
          omega
        have hszm : sizeM (m2 :: ms2) ≤ f := by
          have h1 : sizeM ((k, v) :: m2 :: ms2) = 1 + max (sizeJ v) (sizeM (m2 :: ms2)) := rfl
          omega
        have heq : serializeMembers ((k, v) :: m2 :: ms2) ++ (rbrace :: rest) =
            '"' :: ((k.map escapeChar).flatten ++
              ('"' :: (':' :: (serialize v ++
                (',' :: (serializeMembers (m2 :: ms2) ++ (rbrace :: rest))))))) := by
          show (serStr k ++ ':' :: serialize v ++ ',' :: serializeMembers (m2 :: ms2)) ++
            (rbrace :: rest) = _
          simp [serStr, List.append_assoc]
        rw [heq, parseMembers_succ]
        show (match parseStrBody ((k.map escapeChar).flatten ++
            ('"' :: (':' :: (serialize v ++
              (',' :: (serializeMembers (m2 :: ms2) ++ (rbrace :: rest))))))) with
          | none => none
          | some (k, r1) =>
            match skipWs r1 with
            | [] => none
            | c2 :: r2 =>
              if c2 == ':' then
                match parseValue f r2 with
                | none => none
                | some (v, r3) =>
                  match skipWs r3 with
                  | [] => none
                  | c3 :: r4 =>
                    if c3 == ',' then (parseMembers f r4).map (fun (p : List (JStr × JValue) × JStr) => ((k, v) :: p.1, p.2))
                    else if c3 == rbrace then some ([(k, v)], r4)
                    else none
              else none) = _
        rw [parseStrBody_ser k
          (':' :: (serialize v ++ (',' :: (serializeMembers (m2 :: ms2) ++ (rbrace :: rest)))))]
        show (match parseValue f (serialize v ++
            (',' :: (serializeMembers (m2 :: ms2) ++ (rbrace :: rest)))) with
          | none => none
          | some (v, r3) =>
            match skipWs r3 with
            | [] => none
            | c3 :: r4 =>
              if c3 == ',' then (parseMembers f r4).map (fun (p : List (JStr × JValue) × JStr) => ((k, v) :: p.1, p.2))
              else if c3 == rbrace then some ([(k, v)], r4)
              else none) = _
        rw [ihv v hw.1 hszv
          (',' :: (serializeMembers (m2 :: ms2) ++ (rbrace :: rest))) rfl]
        show (parseMembers f (serializeMembers (m2 :: ms2) ++ (rbrace :: rest))).map
          (fun p => ((k, v) :: p.1, p.2)) = _
        rw [ihm (m2 :: ms2) hw.2 hszm (by simp) rest]
        rfl

/-- Helper: parseJSON inverts the serializer on well-formed values. -/
theorem parseJSON_serialize (v : JValue) (hwf : wfJ v = true) :
    parseJSON (serialize v) = some v := by
  have hsz : sizeJ v ≤ 2 * (serialize v).length + 2 := by
    have := sizeJ_le_len v hwf
    omega
  have h := (parse_ser (2 * (serialize v).length + 2)).1 v hwf hsz [] rfl
  rw [List.append_nil] at h
  unfold parseJSON
  rw [h]
  rfl

/-- Helper: value of a digit string extended by one digit. -/
theorem valFold_append_single (xs : JStr) (d : Char) :
    valFold (xs ++ [d]) = valFold xs * 10 + (d.toNat - 48) := by
  simp [valFold, List.foldl_append]

/-- Helper: the decimal rendering is nonempty, all digits, evaluates back to
its input, and for positive inputs starts with a nonzero digit. -/
theorem natLexAux_spec : ∀ fuel n : Nat, n < fuel →
    natLexAux fuel n ≠ [] ∧ (natLexAux fuel n).all isDigitCh = true ∧
    valFold (natLexAux fuel n) = n ∧
    (1 ≤ n → ∃ c cs, natLexAux fuel n = c :: cs ∧ 49 ≤ c.toNat ∧ c.toNat ≤ 57) := by
  intro fuel
  induction fuel with
  | zero =>
    intro n h
    omega
  | succ f ih =>
    intro n h
    by_cases h10 : n < 10
    · have heq : natLexAux (f + 1) n = [digitCh n] := by simp [natLexAux, h10]
      have hd := digitCh_facts ⟨n, h10⟩
      have hd2 : (digitCh n).toNat = 48 + n := hd.2
      refine ⟨by simp [heq], by simp [heq, hd.1], ?_, ?_⟩
      · rw [heq]
        have hv : valFold [digitCh n] = (digitCh n).toNat - 48 := by
          simp [valFold]
        rw [hv, hd2]
        omega
      · intro h1
        exact ⟨digitCh n, [], heq, by omega, by omega⟩
    · have heq : natLexAux (f + 1) n = natLexAux f (n / 10) ++ [digitCh (n % 10)] := by
        simp [natLexAux, h10]
      have hdiv : n / 10 < n := Nat.div_lt_self (by omega) (by omega)
      have hlt : n / 10 < f := by omega
      have hdm : n % 10 < 10 := Nat.mod_lt _ (by omega)
      have hd := digitCh_facts ⟨n % 10, hdm⟩
      have hd2 : (digitCh (n % 10)).toNat = 48 + n % 10 := hd.2
      obtain ⟨hne, hall, hval, hhead⟩ := ih (n / 10) hlt
      refine ⟨by simp [heq], ?_, ?_, ?_⟩
      · rw [heq]
        simp [List.all_append, hall, hd.1]
      · rw [heq, valFold_append_single, hval, hd2]
        have := Nat.div_add_mod n 10
        omega
      · intro _
        obtain ⟨c, cs, hc, hc1, hc2⟩ := hhead (by omega)
        exact ⟨c, cs ++ [digitCh (n % 10)], by rw [heq, hc]; rfl, hc1, hc2⟩

/-- Helper: decimal lexemes of naturals are canonical. -/
theorem goodNum_natLex (n : Nat) : goodNum (natLex n) = true := by
  by_cases h0 : n = 0
  · subst h0
    rfl
  · obtain ⟨hne, hall, hval, hhead⟩ := natLexAux_spec (n + 1) n (by omega)
    obtain ⟨c, cs, hc, h1, h2⟩ := hhead (by omega)
    show goodNum (natLexAux (n + 1) n) = true
    rw [hc]
    rw [hc] at hall
    simp only [List.all_cons, Bool.and_eq_true] at hall
    simp [goodNum, char_ne_of_range c '0' 49 57 h1 h2 (by decide), h1, h2, hall.2]

/-- Helper: the decimal lexeme of a natural decodes back to it. -/
theorem natOfLex_natLex (n : Nat) : natOfLex (natLex n) = some n := by
  obtain ⟨hne, hall, hval, _⟩ := natLexAux_spec (n + 1) n (by omega)
  have h1 : (natLexAux (n + 1) n).isEmpty = false := by
    cases hx : natLexAux (n + 1) n
    · exact absurd hx hne
    · rfl
  show natOfLex (natLexAux (n + 1) n) = some n
  simp [natOfLex, h1, hall, hval]

/-- Helper: encoded source references are well formed. -/
theorem wfJ_encodeSource (s : SourceRef) : wfJ (encodeSource s) = true := by
  obtain ⟨t, u⟩ := s
  cases t <;> cases u <;> rfl

/-- Helper: lists of encoded source references are well formed. -/
theorem wfL_map_encodeSource : ∀ l : List SourceRef, wfL (l.map encodeSource) = true := by
  intro l
  induction l with
  | nil => rfl
  | cons s l ih =>
    show (wfJ (encodeSource s) && wfL (l.map encodeSource)) = true
    rw [wfJ_encodeSource s, ih]
    rfl

/-- Helper: encoded chat messages are well formed. -/
theorem wfJ_encodeMessage (m : ChatMessage) : wfJ (encodeMessage m) = true := by
  obtain ⟨i, ro, tx, img, ts, srcs⟩ := m
  cases img <;> cases srcs <;>
    simp [encodeMessage, optStrMember, wfJ, wfM, goodNum_natLex, wfL_map_encodeSource]

/-- Helper: lists of encoded chat messages are well formed. -/
theorem wfL_map_encodeMessage : ∀ l : List ChatMessage, wfL (l.map encodeMessage) = true := by
  intro l
  induction l with
  | nil => rfl
  | cons m l ih =>
    show (wfJ (encodeMessage m) && wfL (l.map encodeMessage)) = true
    rw [wfJ_encodeMessage m, ih]
    rfl

/-- Helper: encoded chat sessions are well formed. -/
theorem wfJ_encodeSession (s : ChatSession) : wfJ (encodeSession s) = true := by
  obtain ⟨i, t, msgs, ts⟩ := s
  simp [encodeSession, wfJ, wfM, goodNum_natLex, wfL_map_encodeMessage]

/-- Helper: the encoded session list is well formed. -/
theorem wfJ_encodeSessions (l : List ChatSession) : wfJ (encodeSessions l) = true := by
  show wfL (l.map encodeSession) = true
  induction l with
  | nil => rfl
  | cons s l ih =>
    show (wfJ (encodeSession s) && wfL (l.map encodeSession)) = true
    rw [wfJ_encodeSession s, ih]
    rfl

/-- Helper: decoding inverts encoding on source references. -/
theorem decodeSource_encode (s : SourceRef) : decodeSource (encodeSource s) = some s := by
  obtain ⟨t, u⟩ := s
  cases t <;> cases u <;> rfl

/-- Helper: element-wise decoding inverts element-wise encoding. -/
theorem decodeListJV_map {α : Type} (dec : JValue → Option α) (enc : α → JValue)
    (l : List α) (h : ∀ x ∈ l, dec (enc x) = some x) :
    decodeListJV dec (l.map enc) = some l := by
  induction l with
  | nil => rfl
  | cons x l ih =>
    show (match dec (enc x), decodeListJV dec (l.map enc) with
      | some a, some as => some (a :: as)
      | _, _ => none) = some (x :: l)
    rw [h x (by simp), ih (fun y hy => h y (by simp [hy]))]

/-- Helper: role strings decode back to roles. -/
theorem decodeRole_roleStr (ro : Role) : decodeRole (JValue.str (roleStr ro)) = some ro := by
  cases ro <;> rfl

/-- Helper: encoded timestamps decode back. -/
theorem decodeNat_natLex (ts : Nat) : decodeNat (JValue.num (natLex ts)) = some ts :=
  natOfLex_natLex ts

/-- Helper: decoding inverts encoding on chat messages. -/
theorem decodeMessage_encode (m : ChatMessage) : decodeMessage (encodeMessage m) = some m := by
  obtain ⟨i, ro, tx, img, ts, srcs⟩ := m
  cases img with
  | none =>
    cases srcs with
    | none =>
      show decodeMessage (JValue.obj
            [(js "id", JValue.str i),
              (js "role", JValue.str (roleStr ro)),
              (js "text", JValue.str tx),
              (js "timestamp", JValue.num (natLex ts))]) =
            some ⟨i, ro, tx, none, ts, none⟩
      simp only [decodeMessage,
            show memberLookup
              [(js "id", JValue.str i),
              (js "role", JValue.str (roleStr ro)),
              (js "text", JValue.str tx),
              (js "timestamp", JValue.num (natLex ts))] (js "id") =
              some (JValue.str i) from rfl,
            show memberLookup
              [(js "id", JValue.str i),
              (js "role", JValue.str (roleStr ro)),
              (js "text", JValue.str tx),
              (js "timestamp", JValue.num (natLex ts))] (js "role") =
              some (JValue.str (roleStr ro)) from rfl,
            show memberLookup
              [(js "id", JValue.str i),
              (js "role", JValue.str (roleStr ro)),
              (js "text", JValue.str tx),
              (js "timestamp", JValue.num (natLex ts))] (js "text") =
              some (JValue.str tx) from rfl,
            show memberLookup
              [(js "id", JValue.str i),
              (js "role", JValue.str (roleStr ro)),
              (js "text", JValue.str tx),
              (js "timestamp", JValue.num (natLex ts))] (js "timestamp") =
              some (JValue.num (natLex ts)) from rfl,
            show memberLookup
              [(js "id", JValue.str i),
              (js "role", JValue.str (roleStr ro)),
              (js "text", JValue.str tx),
              (js "timestamp", JValue.num (natLex ts))] (js "sources") =
              none from rfl,
            show decodeOptStr
              [(js "id", JValue.str i),
              (js "role", JValue.str (roleStr ro)),
              (js "text", JValue.str tx),
              (js "timestamp", JValue.num (natLex ts))] "imageUrl" =
              some none from rfl,
            decodeStr,
            decodeRole_roleStr,
            decodeNat_natLex]
    | some l =>
      show decodeMessage (JValue.obj
            [(js "id", JValue.str i),
              (js "role", JValue.str (roleStr ro)),
              (js "text", JValue.str tx),
              (js "timestamp", JValue.num (natLex ts)),
              (js "sources", JValue.arr (l.map encodeSource))]) =
            some ⟨i, ro, tx, none, ts, some l⟩
      simp only [decodeMessage,
            show memberLookup
              [(js "id", JValue.str i),
              (js "role", JValue.str (roleStr ro)),
              (js "text", JValue.str tx),
              (js "timestamp", JValue.num (natLex ts)),
              (js "sources", JValue.arr (l.map encodeSource))] (js "id") =
              some (JValue.str i) from rfl,
            show memberLookup
              [(js "id", JValue.str i),
              (js "role", JValue.str (roleStr ro)),
              (js "text", JValue.str tx),
              (js "timestamp", JValue.num (natLex ts)),
              (js "sources", JValue.arr (l.map encodeSource))] (js "role") =
              some (JValue.str (roleStr ro)) from rfl,
            show memberLookup
              [(js "id", JValue.str i),
              (js "role", JValue.str (roleStr ro)),
              (js "text", JValue.str tx),
              (js "timestamp", JValue.num (natLex ts)),
              (js "sources", JValue.arr (l.map encodeSource))] (js "text") =
              some (JValue.str tx) from rfl,
            show memberLookup
              [(js "id", JValue.str i),
              (js "role", JValue.str (roleStr ro)),
              (js "text", JValue.str tx),
              (js "timestamp", JValue.num (natLex ts)),
              (js "sources", JValue.arr (l.map encodeSource))] (js "timestamp") =
              some (JValue.num (natLex ts)) from rfl,
            show memberLookup
              [(js "id", JValue.str i),
              (js "role", JValue.str (roleStr ro)),
              (js "text", JValue.str tx),
              (js "timestamp", JValue.num (natLex ts)),
              (js "sources", JValue.arr (l.map encodeSource))] (js "sources") =
              some (JValue.arr (l.map encodeSource)) from rfl,
            show decodeOptStr
              [(js "id", JValue.str i),
              (js "role", JValue.str (roleStr ro)),
              (js "text", JValue.str tx),
              (js "timestamp", JValue.num (natLex ts)),
              (js "sources", JValue.arr (l.map encodeSource))] "imageUrl" =
              some none from rfl,
            decodeStr,
            decodeRole_roleStr,
            decodeNat_natLex,
            decodeListJV_map decodeSource encodeSource l (fun x _ => decodeSource_encode x)]
  | some u =>
    cases srcs with
    | none =>
      show decodeMessage (JValue.obj
            [(js "id", JValue.str i),
              (js "role", JValue.str (roleStr ro)),
              (js "text", JValue.str tx),
              (js "imageUrl", JValue.str u),
              (js "timestamp", JValue.num (natLex ts))]) =
            some ⟨i, ro, tx, some u, ts, none⟩
      simp only [decodeMessage,
            show memberLookup
              [(js "id", JValue.str i),
              (js "role", JValue.str (roleStr ro)),
              (js "text", JValue.str tx),
              (js "imageUrl", JValue.str u),
              (js "timestamp", JValue.num (natLex ts))] (js "id") =
              some (JValue.str i) from rfl,
            show memberLookup
              [(js "id", JValue.str i),
              (js "role", JValue.str (roleStr ro)),
              (js "text", JValue.str tx),
              (js "imageUrl", JValue.str u),
              (js "timestamp", JValue.num (natLex ts))] (js "role") =
              some (JValue.str (roleStr ro)) from rfl,
            show memberLookup
              [(js "id", JValue.str i),
              (js "role", JValue.str (roleStr ro)),
              (js "text", JValue.str tx),
              (js "imageUrl", JValue.str u),
              (js "timestamp", JValue.num (natLex ts))] (js "text") =
              some (JValue.str tx) from rfl,
            show memberLookup
              [(js "id", JValue.str i),
              (js "role", JValue.str (roleStr ro)),
              (js "text", JValue.str tx),
              (js "imageUrl", JValue.str u),
              (js "timestamp", JValue.num (natLex ts))] (js "timestamp") =
              some (JValue.num (natLex ts)) from rfl,
            show memberLookup
              [(js "id", JValue.str i),
              (js "role", JValue.str (roleStr ro)),
              (js "text", JValue.str tx),
              (js "imageUrl", JValue.str u),
              (js "timestamp", JValue.num (natLex ts))] (js "sources") =
              none from rfl,
            show decodeOptStr
              [(js "id", JValue.str i),
              (js "role", JValue.str (roleStr ro)),
              (js "text", JValue.str tx),
              (js "imageUrl", JValue.str u),
              (js "timestamp", JValue.num (natLex ts))] "imageUrl" =
              some (some u) from rfl,
            decodeStr,
            decodeRole_roleStr,
            decodeNat_natLex]
    | some l =>
      show decodeMessage (JValue.obj
            [(js "id", JValue.str i),
              (js "role", JValue.str (roleStr ro)),
              (js "text", JValue.str tx),
              (js "imageUrl", JValue.str u),
              (js "timestamp", JValue.num (natLex ts)),
              (js "sources", JValue.arr (l.map encodeSource))]) =
            some ⟨i, ro, tx, some u, ts, some l⟩
      simp only [decodeMessage,
            show memberLookup
              [(js "id", JValue.str i),
              (js "role", JValue.str (roleStr ro)),
              (js "text", JValue.str tx),
              (js "imageUrl", JValue.str u),
              (js "timestamp", JValue.num (natLex ts)),
              (js "sources", JValue.arr (l.map encodeSource))] (js "id") =
              some (JValue.str i) from rfl,
            show memberLookup
              [(js "id", JValue.str i),
              (js "role", JValue.str (roleStr ro)),
              (js "text", JValue.str tx),
              (js "imageUrl", JValue.str u),
              (js "timestamp", JValue.num (natLex ts)),
              (js "sources", JValue.arr (l.map encodeSource))] (js "role") =
              some (JValue.str (roleStr ro)) from rfl,
            show memberLookup
              [(js "id", JValue.str i),
              (js "role", JValue.str (roleStr ro)),
              (js "text", JValue.str tx),
              (js "imageUrl", JValue.str u),
              (js "timestamp", JValue.num (natLex ts)),
              (js "sources", JValue.arr (l.map encodeSource))] (js "text") =
              some (JValue.str tx) from rfl,
            show memberLookup
              [(js "id", JValue.str i),
              (js "role", JValue.str (roleStr ro)),
              (js "text", JValue.str tx),
              (js "imageUrl", JValue.str u),
              (js "timestamp", JValue.num (natLex ts)),
              (js "sources", JValue.arr (l.map encodeSource))] (js "timestamp") =
              some (JValue.num (natLex ts)) from rfl,
            show memberLookup
              [(js "id", JValue.str i),
              (js "role", JValue.str (roleStr ro)),
              (js "text", JValue.str tx),
              (js "imageUrl", JValue.str u),
              (js "timestamp", JValue.num (natLex ts)),
              (js "sources", JValue.arr (l.map encodeSource))] (js "sources") =
              some (JValue.arr (l.map encodeSource)) from rfl,
            show decodeOptStr
              [(js "id", JValue.str i),
              (js "role", JValue.str (roleStr ro)),
              (js "text", JValue.str tx),
              (js "imageUrl", JValue.str u),
              (js "timestamp", JValue.num (natLex ts)),
              (js "sources", JValue.arr (l.map encodeSource))] "imageUrl" =
              some (some u) from rfl,
            decodeStr,
            decodeRole_roleStr,
            decodeNat_natLex,
            decodeListJV_map decodeSource encodeSource l (fun x _ => decodeSource_encode x)]

/-- Helper: decoding inverts encoding on chat sessions. -/
theorem decodeSession_encode (s : ChatSession) : decodeSession (encodeSession s) = some s := by
  obtain ⟨i, t, msgs, ts⟩ := s
  show decodeSession (JValue.obj
    [(js "id", JValue.str i), (js "title", JValue.str t),
        (js "messages", JValue.arr (msgs.map encodeMessage)),
        (js "timestamp", JValue.num (natLex ts))]) = some ⟨i, t, msgs, ts⟩
  simp only [decodeSession,
    show memberLookup
      [(js "id", JValue.str i), (js "title", JValue.str t),
        (js "messages", JValue.arr (msgs.map encodeMessage)),
        (js "timestamp", JValue.num (natLex ts))] (js "id") = some (JValue.str i) from rfl,
    show memberLookup
      [(js "id", JValue.str i), (js "title", JValue.str t),
        (js "messages", JValue.arr (msgs.map encodeMessage)),
        (js "timestamp", JValue.num (natLex ts))] (js "title") = some (JValue.str t) from rfl,
    show memberLookup
      [(js "id", JValue.str i), (js "title", JValue.str t),
        (js "messages", JValue.arr (msgs.map encodeMessage)),
        (js "timestamp", JValue.num (natLex ts))] (js "messages") =
      some (JValue.arr (msgs.map encodeMessage)) from rfl,
    show memberLookup
      [(js "id", JValue.str i), (js "title", JValue.str t),
        (js "messages", JValue.arr (msgs.map encodeMessage)),
        (js "timestamp", JValue.num (natLex ts))] (js "timestamp") =
      some (JValue.num (natLex ts)) from rfl,
    decodeStr, decodeNat_natLex,
    decodeListJV_map decodeMessage encodeMessage msgs (fun x _ => decodeMessage_encode x)]

/-- Helper: decoding inverts encoding on the stored session list. -/
theorem decodeSessions_encode (l : List ChatSession) :
    decodeSessions (encodeSessions l) = some l := by
  show decodeListJV decodeSession (l.map encodeSession) = some l
  exact decodeListJV_map decodeSession encodeSession l (fun x _ => decodeSession_encode x)

/-- C9: saving a chat session prepends to the archives the session derived
from the current messages (id and title as computed by the component, most
recent first), and reloading the stored list — serializing the session list
to the JSON store string, parsing that string back, and structurally reading
the parsed value — reproduces the identical session list, preserving every
id, title, message list and timestamp and the list order. -/
theorem chatSessions_roundtrip (now : Nat) (m0 : ChatMessage)
    (rest : List ChatMessage) (archives : List ChatSession) :
    saveCurrentSession now (m0 :: rest) archives =
      { id := natLex now,
        title := jsOr (some (sessionTitleOf m0.text)) (js "Untitled Investigation"),
        messages := m0 :: rest,
        timestamp := now } :: archives ∧
    (parseJSON (serialize (encodeSessions (saveCurrentSession now (m0 :: rest) archives)))).bind
        decodeSessions =
      some (saveCurrentSession now (m0 :: rest) archives) := by
  refine ⟨rfl, ?_⟩
  rw [parseJSON_serialize _ (wfJ_encodeSessions _)]
  exact decodeSessions_encode _

/-- C9 witness: the round trip evaluated on a concrete saved session. -/
theorem chatSessions_roundtrip_witness :
    saveCurrentSession 17 [(⟨js "m", Role.user, js "hello", none, 5, none⟩ : ChatMessage)] [] =
      { id := natLex 17,
        title := jsOr (some (sessionTitleOf (js "hello"))) (js "Untitled Investigation"),
        messages := [⟨js "m", Role.user, js "hello", none, 5, none⟩],
        timestamp := 17 } :: [] ∧
    (parseJSON (serialize (encodeSessions (saveCurrentSession 17
        [(⟨js "m", Role.user, js "hello", none, 5, none⟩ : ChatMessage)] [])))).bind
        decodeSessions =
      some (saveCurrentSession 17
        [(⟨js "m", Role.user, js "hello", none, 5, none⟩ : ChatMessage)] []) :=
  chatSessions_roundtrip 17 ⟨js "m", Role.user, js "hello", none, 5, none⟩ [] []

end Violen
